import Mathlib

/-!
Verification of the schema-driven widget tree of `qtjsonschema/widgets.py`.

The file shallowly embeds the node-tree engine: JSON values, the state of the
Qt value-holding controls the widgets wrap, the resolution context, the widget
tree itself, the node factory `_create_widget`, and the `load_json_object` /
`dump_json_object` operations of every widget class.  Python exceptions are
modelled by `Option` (a raising call returns `none`), recursion that is
unbounded in Python (the `$ref` loop and the factory recursion) is bounded by
an explicit fuel argument that strictly decreases on every recursive call.

Qt control semantics used by the source and modelled here, following the
documented Qt behaviour:
* `QLineEdit`: `setMaxLength` caps the text length (default 32767); `setText`
  truncates text longer than the cap.
* `QSpinBox` / `QDoubleSpinBox`: default range 0..99 (0.0..99.99); `setMinimum`
  raises the maximum when needed, `setMaximum` lowers the minimum when needed,
  and `setValue` clamps into the current range; `QDoubleSpinBox` additionally
  rounds the value to its two default decimals.
* `QComboBox`: current index is -1 while empty, becomes 0 once items are
  inserted; `setCurrentIndex` with an out-of-range index resets it to -1.
* `QCheckBox`: a plain two-state flag.

Parsed JSON objects (loaded through `json.loads`) have unique keys, so Python
dicts are modelled as association lists with first-match lookup.  The string
validators (`ValidationFormatter`, `RegexValidator`, ...) of `validators.py`
only drive display formatting and are not modelled; they do not affect
`load_json_object` / `dump_json_object`.
-/

namespace PyQtSchema

/-- JSON values. `jint`/`jnum` mirror Python's `int`/`float` distinction
produced by `json.loads`; numbers are exact rationals. -/
inductive JSON where
  | jnull
  | jbool (b : Bool)
  | jint (n : Int)
  | jnum (q : Rat)
  | jstr (s : String)
  | jarr (xs : List JSON)
  | jobj (kvs : List (String × JSON))
deriving Repr

mutual

/-- Decidable equality of JSON values (spelled out because the automatic
derivation does not handle the nested lists). -/
def JSON.decEq : (a b : JSON) → Decidable (a = b)
  | .jnull, .jnull => isTrue rfl
  | .jbool a, .jbool b =>
    if h : a = b then isTrue (h ▸ rfl) else isFalse fun hh => h (by injection hh)
  | .jint a, .jint b =>
    if h : a = b then isTrue (h ▸ rfl) else isFalse fun hh => h (by injection hh)
  | .jnum a, .jnum b =>
    if h : a = b then isTrue (h ▸ rfl) else isFalse fun hh => h (by injection hh)
  | .jstr a, .jstr b =>
    if h : a = b then isTrue (h ▸ rfl) else isFalse fun hh => h (by injection hh)
  | .jarr a, .jarr b =>
    match JSON.decEqList a b with
    | isTrue h => isTrue (h ▸ rfl)
    | isFalse h => isFalse fun hh => h (by injection hh)
  | .jobj a, .jobj b =>
    match JSON.decEqObj a b with
    | isTrue h => isTrue (h ▸ rfl)
    | isFalse h => isFalse fun hh => h (by injection hh)
  | .jnull, .jbool _ => isFalse nofun
  | .jnull, .jint _ => isFalse nofun
  | .jnull, .jnum _ => isFalse nofun
  | .jnull, .jstr _ => isFalse nofun
  | .jnull, .jarr _ => isFalse nofun
  | .jnull, .jobj _ => isFalse nofun
  | .jbool _, .jnull => isFalse nofun
  | .jbool _, .jint _ => isFalse nofun
  | .jbool _, .jnum _ => isFalse nofun
  | .jbool _, .jstr _ => isFalse nofun
  | .jbool _, .jarr _ => isFalse nofun
  | .jbool _, .jobj _ => isFalse nofun
  | .jint _, .jnull => isFalse nofun
  | .jint _, .jbool _ => isFalse nofun
  | .jint _, .jnum _ => isFalse nofun
  | .jint _, .jstr _ => isFalse nofun
  | .jint _, .jarr _ => isFalse nofun
  | .jint _, .jobj _ => isFalse nofun
  | .jnum _, .jnull => isFalse nofun
  | .jnum _, .jbool _ => isFalse nofun
  | .jnum _, .jint _ => isFalse nofun
  | .jnum _, .jstr _ => isFalse nofun
  | .jnum _, .jarr _ => isFalse nofun
  | .jnum _, .jobj _ => isFalse nofun
  | .jstr _, .jnull => isFalse nofun
  | .jstr _, .jbool _ => isFalse nofun
  | .jstr _, .jint _ => isFalse nofun
  | .jstr _, .jnum _ => isFalse nofun
  | .jstr _, .jarr _ => isFalse nofun
  | .jstr _, .jobj _ => isFalse nofun
  | .jarr _, .jnull => isFalse nofun
  | .jarr _, .jbool _ => isFalse nofun
  | .jarr _, .jint _ => isFalse nofun
  | .jarr _, .jnum _ => isFalse nofun
  | .jarr _, .jstr _ => isFalse nofun
  | .jarr _, .jobj _ => isFalse nofun
  | .jobj _, .jnull => isFalse nofun
  | .jobj _, .jbool _ => isFalse nofun
  | .jobj _, .jint _ => isFalse nofun
  | .jobj _, .jnum _ => isFalse nofun
  | .jobj _, .jstr _ => isFalse nofun
  | .jobj _, .jarr _ => isFalse nofun

def JSON.decEqList : (a b : List JSON) → Decidable (a = b)
  | [], [] => isTrue rfl
  | [], _ :: _ => isFalse nofun
  | _ :: _, [] => isFalse nofun
  | x :: xs, y :: ys =>
    match JSON.decEq x y with
    | isFalse h => isFalse fun hh => h (by injection hh)
    | isTrue h1 =>
      match JSON.decEqList xs ys with
      | isTrue h2 => isTrue (by rw [h1, h2])
      | isFalse h => isFalse fun hh => h (by injection hh)

def JSON.decEqObj : (a b : List (String × JSON)) → Decidable (a = b)
  | [], [] => isTrue rfl
  | [], _ :: _ => isFalse nofun
  | _ :: _, [] => isFalse nofun
  | (k, x) :: xs, (k2, y) :: ys =>
    if hk : k = k2 then
      match JSON.decEq x y with
      | isFalse h => isFalse fun hh => h (by injection hh with h1 h2; exact congrArg Prod.snd h1)
      | isTrue hx =>
        match JSON.decEqObj xs ys with
        | isTrue h2 => isTrue (by rw [hk, hx, h2])
        | isFalse h => isFalse fun hh => h (by injection hh)
    else isFalse fun hh => hk (by injection hh with h1 h2; exact congrArg Prod.fst h1)

end

instance : DecidableEq JSON := JSON.decEq

/-- Key lookup in a JSON object body, i.e. Python `schema[k]` / `k in schema`
on a dict with unique keys. -/
def jlookup : List (String × JSON) → String → Option JSON
  | [], _ => none
  | (k, v) :: r, key => if k = key then some v else jlookup r key

/-- Key lookup on a JSON value: `none` when the value is not an object. -/
def jsonLookup : JSON → String → Option JSON
  | .jobj kvs, key => jlookup kvs key
  | _, _ => none

/-- Python truthiness of a JSON value, as used by
`if schema.get("exclusiveMinimum", False):`. -/
def pyTruthy : JSON → Bool
  | .jnull => false
  | .jbool b => b
  | .jint n => n != 0
  | .jnum q => q != 0
  | .jstr s => s != ""
  | .jarr xs => !xs.isEmpty
  | .jobj kvs => !kvs.isEmpty

/-- Conversion of a JSON value to a Python `int` argument (PyQt accepts `int`
and `bool`, which is an `int` subclass; anything else raises `TypeError`). -/
def asInt : JSON → Option Int
  | .jint n => some n
  | .jbool b => some (if b then 1 else 0)
  | _ => none

/-- Conversion of a JSON value to a Python `float` argument (PyQt converts
`int` and `bool` implicitly; anything else raises `TypeError`). -/
def asRat : JSON → Option Rat
  | .jint n => some n
  | .jbool b => some (if b then 1 else 0)
  | .jnum q => some q
  | _ => none

/-- Python `list.index`: the first position holding an element equal to the
argument, failing (`ValueError`) when there is none. -/
def listIndex : List JSON → JSON → Option Nat
  | [], _ => none
  | x :: r, v => if x = v then some 0 else (listIndex r v).map (· + 1)

/-- Python list subscription `l[i]`, including negative-index wrap-around;
`none` models `IndexError`. -/
def pyGet (l : List JSON) (i : Int) : Option JSON :=
  if 0 ≤ i then l[i.toNat]?
  else if (-i).toNat ≤ l.length then l[l.length - (-i).toNat]? else none

/-- State of a `QLineEdit`: its text and its maximum length (Qt default
32767). -/
structure LineEdit where
  text : String
  maxLength : Nat
deriving DecidableEq, Repr

def LineEdit.init : LineEdit := ⟨"", 32767⟩

/-- `QLineEdit.setMaxLength`: sets the cap and truncates existing text at it. -/
def LineEdit.setMaxLength (e : LineEdit) (n : Nat) : LineEdit :=
  ⟨if e.text.length ≤ n then e.text else e.text.take n, n⟩

/-- `QLineEdit.setText`: text longer than `maxLength` is truncated at the
limit. -/
def LineEdit.setText (e : LineEdit) (s : String) : LineEdit :=
  { e with text := if s.length ≤ e.maxLength then s else s.take e.maxLength }

def clampI (lo hi v : Int) : Int := max lo (min v hi)

/-- State of a `QSpinBox`: range and current value (Qt defaults 0..99, 0). -/
structure SpinBox where
  lo : Int
  hi : Int
  val : Int
deriving DecidableEq, Repr

def SpinBox.init : SpinBox := ⟨0, 99, 0⟩

/-- `QSpinBox.setMinimum`: the maximum is adjusted if necessary to keep the
range valid, and the value is clamped into the new range. -/
def SpinBox.setMinimum (b : SpinBox) (m : Int) : SpinBox :=
  ⟨m, max b.hi m, clampI m (max b.hi m) b.val⟩

/-- `QSpinBox.setMaximum`: the minimum is adjusted if necessary to keep the
range valid, and the value is clamped into the new range. -/
def SpinBox.setMaximum (b : SpinBox) (m : Int) : SpinBox :=
  ⟨min b.lo m, m, clampI (min b.lo m) m b.val⟩

/-- `QSpinBox.setValue`: values outside the range are clamped into it. -/
def SpinBox.setValue (b : SpinBox) (v : Int) : SpinBox :=
  { b with val := clampI b.lo b.hi v }

def clampQ (lo hi v : Rat) : Rat := max lo (min v hi)

/-- Rounding to the two default decimals of a `QDoubleSpinBox`. -/
def round2 (q : Rat) : Rat := (round (q * 100) : Int) / 100

/-- State of a `QDoubleSpinBox`: range and current value (Qt defaults
0.0..99.99, 0.0, two decimals). -/
structure DSpinBox where
  lo : Rat
  hi : Rat
  val : Rat
deriving DecidableEq, Repr

def DSpinBox.init : DSpinBox := ⟨0, 9999 / 100, 0⟩

/-- `QDoubleSpinBox.setMinimum`, with the same range-repair as `QSpinBox`. -/
def DSpinBox.setMinimum (b : DSpinBox) (m : Rat) : DSpinBox :=
  ⟨m, max b.hi m, clampQ m (max b.hi m) b.val⟩

/-- `QDoubleSpinBox.setMaximum`, with the same range-repair as `QSpinBox`. -/
def DSpinBox.setMaximum (b : DSpinBox) (m : Rat) : DSpinBox :=
  ⟨min b.lo m, m, clampQ (min b.lo m) m b.val⟩

/-- `QDoubleSpinBox.setValue`: the value is rounded to the box's decimals and
clamped into the range. -/
def DSpinBox.setValue (b : DSpinBox) (v : Rat) : DSpinBox :=
  { b with val := clampQ b.lo b.hi (round2 v) }

/-- State of a `QComboBox`: number of items and current index. -/
structure Combo where
  count : Nat
  currentIndex : Int
deriving DecidableEq, Repr

def Combo.init : Combo := ⟨0, -1⟩

/-- `QComboBox.addItems`: appends items; inserting into an empty box makes the
first item current. -/
def Combo.addItemsN (c : Combo) (n : Nat) : Combo :=
  ⟨c.count + n, if c.count = 0 ∧ 0 < n then 0 else c.currentIndex⟩

/-- `QComboBox.setCurrentIndex`: an out-of-range index resets the selection
to -1. -/
def Combo.setCurrentIndex (c : Combo) (i : Int) : Combo :=
  { c with currentIndex := if 0 ≤ i ∧ i < (c.count : Int) then i else -1 }

/-- Modelled from the spec: the resolution context of `tools.py`, which is not
under `src/`.  Section 4.2 of the spec describes it as a base URI together
with relative-URI resolution (`follow_uri`) and reference dereferencing
through the loader registry (`dereference`); both are kept abstract here as
function-valued fields of the context. -/
structure Ctx where
  base : String
  resolveUri : String → String → String
  derefAt : String → String → Option JSON

/-- Modelled from the spec: `Context.follow_uri` resolves an `id` against the
current base URI and keeps the registry. -/
def Ctx.followUri (c : Ctx) (u : String) : Ctx :=
  { c with base := c.resolveUri c.base u }

/-- Modelled from the spec: `Context.dereference` resolves a `$ref` against
the base URI and fetches the referenced fragment; failures
(`ReferenceResolutionError`) are `none`. -/
def Ctx.dereference (c : Ctx) (r : String) : Option JSON :=
  c.derefAt c.base r

/-- A context whose every dereference fails; used for concrete inputs that
contain no reference. -/
def ctx0 : Ctx := ⟨"#", fun _ u => u, fun _ _ => none⟩

/-- The widget tree.  Every constructor carries the fields stored by
`JSONBaseWidget.__init__` (`name`, the (dereferenced) `schema`, and the
inherited `definitions`); the variants add the state of their value-holding
control.  `wArray` also keeps `self.ctx`, `self.items_schema` and
`self.additional_item_schema`, which `add_item` consults; the `ctx` stored by
the other variants is never read again and is omitted. -/
inductive Widget where
  | wUnsupported (name : String) (schema : JSON) (defs : JSON)
  | wObject (name : String) (schema : JSON) (defs : JSON) (props : List (String × Widget))
  | wString (name : String) (schema : JSON) (defs : JSON) (edit : LineEdit)
  | wInt (name : String) (schema : JSON) (defs : JSON) (box : SpinBox)
  | wNum (name : String) (schema : JSON) (defs : JSON) (box : DSpinBox)
  | wBool (name : String) (schema : JSON) (defs : JSON) (checked : Bool)
  | wEnum (name : String) (schema : JSON) (defs : JSON) (vals : List JSON) (combo : Combo)
  | wArray (name : String) (schema : JSON) (defs : JSON) (ctx : Ctx) (itemsSchema : JSON)
      (additionalItems : Option JSON) (children : List Widget)

instance : Inhabited Widget := ⟨.wBool "" .jnull (.jobj []) false⟩

/-- The stored `self.schema` of a widget. -/
def Widget.schemaOf : Widget → JSON
  | .wUnsupported _ s _ => s
  | .wObject _ s _ _ => s
  | .wString _ s _ _ => s
  | .wInt _ s _ _ => s
  | .wNum _ s _ _ => s
  | .wBool _ s _ _ => s
  | .wEnum _ s _ _ _ => s
  | .wArray _ s _ _ _ _ _ => s

/-- The stored `self.definitions` of a widget. -/
def Widget.defsOf : Widget → JSON
  | .wUnsupported _ _ d => d
  | .wObject _ _ d _ => d
  | .wString _ _ d _ => d
  | .wInt _ _ d _ => d
  | .wNum _ _ d _ => d
  | .wBool _ _ d _ => d
  | .wEnum _ _ d _ _ => d
  | .wArray _ _ d _ _ _ _ => d

/-- Which widget class a node is an instance of. -/
inductive WKind where
  | unsupported | object | string | integer | number | boolean | enum | array
deriving DecidableEq, Repr

def Widget.kindOf : Widget → WKind
  | .wUnsupported _ _ _ => .unsupported
  | .wObject _ _ _ _ => .object
  | .wString _ _ _ _ => .string
  | .wInt _ _ _ _ => .integer
  | .wNum _ _ _ _ => .number
  | .wBool _ _ _ _ => .boolean
  | .wEnum _ _ _ _ _ => .enum
  | .wArray _ _ _ _ _ _ _ => .array

/-- Range of an Integer node's spin box, when the node is one. -/
def Widget.intBounds : Widget → Option (Int × Int)
  | .wInt _ _ _ b => some (b.lo, b.hi)
  | _ => none

/-- Range of a Number node's spin box, when the node is one. -/
def Widget.numBounds : Widget → Option (Rat × Rat)
  | .wNum _ _ _ b => some (b.lo, b.hi)
  | _ => none

/-- The `$ref` loop of `_create_widget`: `while "$ref" in schema: schema =
ctx.dereference(schema["$ref"])`.  The Python loop is unbounded; fuel bounds
it here (`none` covers both a failing dereference and exhaustion).  A
non-object fragment has no `$ref` key and leaves the loop. -/
def derefChain : Nat → Ctx → JSON → Option JSON
  | 0, _, _ => none
  | f + 1, ctx, s =>
    match s with
    | .jobj kvs =>
      match jlookup kvs "$ref" with
      | some (.jstr r) =>
        match ctx.dereference r with
        | some s2 => derefChain f ctx s2
        | none => none
      | some _ => none
      | none => some (.jobj kvs)
    | s => some s

/-- The `definitions` computation of `JSONBaseWidget.__init__`: the schema's
own `definitions` entry when present, else the parent's `definitions` when a
parent exists, else the empty dict. -/
def expectedDefs (s : JSON) (parentDefs : Option JSON) : JSON :=
  match jsonLookup s "definitions" with
  | some d => d
  | none => parentDefs.getD (.jobj [])

/-- `JSONArrayWidget._get_item_schema`: a list-valued `items` indexes by
position and falls back to `additionalItems` (asserting it is present); a
dict-valued `items` is shared by every index; anything else fails the
`isinstance` assertion. -/
def get_item_schema (itemsSchema : JSON) (addl : Option JSON) (i : Nat) : Option JSON :=
  match itemsSchema with
  | .jarr l =>
    match l[i]? with
    | some s => some s
    | none => addl
  | .jobj kvs => some (.jobj kvs)
  | _ => none

/-- `SpinBoxWidgetBase._set_limits` for `JSONIntegerWidget` (step 1): a
present `minimum` is incremented by one step when `exclusiveMinimum` is
truthy and installed via `setMinimum`, symmetrically for `maximum`. -/
def set_limits_int (kvs : List (String × JSON)) (b : SpinBox) : Option SpinBox :=
  (match jlookup kvs "minimum" with
    | none => some b
    | some v =>
      (asInt v).map fun m =>
        b.setMinimum
          (if pyTruthy ((jlookup kvs "exclusiveMinimum").getD (.jbool false)) then m + 1 else m)).bind
    fun b1 =>
      match jlookup kvs "maximum" with
      | none => some b1
      | some v =>
        (asInt v).map fun m =>
          b1.setMaximum
            (if pyTruthy ((jlookup kvs "exclusiveMaximum").getD (.jbool false)) then m - 1 else m)

/-- `SpinBoxWidgetBase._set_limits` for `JSONNumberWidget` (step 0.01). -/
def set_limits_num (kvs : List (String × JSON)) (b : DSpinBox) : Option DSpinBox :=
  (match jlookup kvs "minimum" with
    | none => some b
    | some v =>
      (asRat v).map fun m =>
        b.setMinimum
          (if pyTruthy ((jlookup kvs "exclusiveMinimum").getD (.jbool false)) then m + 1 / 100 else m)).bind
    fun b1 =>
      match jlookup kvs "maximum" with
      | none => some b1
      | some v =>
        (asRat v).map fun m =>
          b1.setMaximum
            (if pyTruthy ((jlookup kvs "exclusiveMaximum").getD (.jbool false)) then m - 1 / 100 else m)

/-- The fixed `schema_type_to_widget_class` table: the six supported `type`
strings map to their widget class, anything else falls back to the
Unsupported placeholder (`dict.get` default). -/
def typeKind (t : String) : WKind :=
  if t = "object" then .object
  else if t = "string" then .string
  else if t = "integer" then .integer
  else if t = "number" then .number
  else if t = "boolean" then .boolean
  else if t = "array" then .array
  else .unsupported

/-- The variant selection of `_create_widget`: `enum` present selects the
Enum class (whatever `type` says); else a present `type` is looked up in
`schema_type_to_widget_class`; else the Unsupported placeholder.  `none`
models the `TypeError` of `dict.get` on an unhashable (list/dict) `type`
value. -/
def widget_class_selection (kvs : List (String × JSON)) : Option WKind :=
  match jlookup kvs "enum" with
  | some _ => some .enum
  | none =>
    match jlookup kvs "type" with
    | some (.jstr t) => some (typeKind t)
    | some (.jarr _) => none
    | some (.jobj _) => none
    | some _ => some .unsupported
    | none => some .unsupported

/-- The `maxLength` handling of `JSONStringWidget.__init__`: a non-`None`
`maxLength` becomes a hard input cap via `setMaxLength`. -/
def lineedit_from_schema (kvs : List (String × JSON)) : Option LineEdit :=
  match jlookup kvs "maxLength" with
  | none => some LineEdit.init
  | some .jnull => some LineEdit.init
  | some v => (asInt v).map fun m => LineEdit.init.setMaxLength m.toNat

/-- Result of running one widget-class constructor inside the `try` of
`_create_widget`: success, the caught `UnsupportedSchemaError`, or any other
exception (which propagates). -/
inductive BuildResult where
  | ok (w : Widget)
  | unsupportedErr
  | err

/-- Association lookup among an object widget's children, i.e.
`self.properties[k]`. -/
def propLookup : List (String × Widget) → String → Option Widget
  | [], _ => none
  | (k, w) :: r, key => if k = key then some w else propLookup r key

/-- Replace the child stored under a key (the in-place mutation of that child
by its `load_json_object`). -/
def propReplace : List (String × Widget) → String → Widget → List (String × Widget)
  | [], _, _ => []
  | (k0, w0) :: r, k, w => if k0 = k then (k0, w) :: r else (k0, w0) :: propReplace r k w

mutual

/-- `_create_widget` without the trailing `initialise()` call: resolve `id`,
run the `$ref` loop, select the widget class (`enum` first, then the
`schema_type_to_widget_class` table, else the Unsupported placeholder), run
its constructor, and substitute an `UnsupportedSchemaWidget` when the
constructor raises `UnsupportedSchemaError`.  A non-dict schema fragment
fails (Python key/attribute errors).  An unhashable `type` value (list/dict)
fails the table lookup with `TypeError`. -/
def construct_widget : Nat → String → JSON → Ctx → Option JSON → Option Widget
  | 0, _, _, _, _ => none
  | f + 1, name, schema0, ctx0, parentDefs =>
    match schema0 with
    | .jobj _ =>
      match
        (match jsonLookup schema0 "id" with
          | some (.jstr u) => some (Ctx.followUri ctx0 u)
          | some _ => none
          | none => some ctx0) with
      | none => none
      | some ctx =>
        match derefChain (f + 1) ctx schema0 with
        | none => none
        | some schema =>
          match schema with
          | .jobj kvs =>
            let defs := expectedDefs (.jobj kvs) parentDefs
            match widget_class_selection kvs with
            | none => none
            | some kind =>
              -- The `__init__` of the selected widget class, run inside the
              -- factory's `try`.  The Enum constructor iterates
              -- `schema['enum']` (a `TypeError` when it is not a list), the
              -- Object constructor builds one child per `properties` entry
              -- (a missing `properties` still constructs, with a red label),
              -- the Integer/Number constructors install the converted
              -- bounds, and the Array constructor raises
              -- `UnsupportedSchemaError` when `items` is missing.
              let res : BuildResult :=
                match kind with
                | .unsupported => .ok (.wUnsupported name (.jobj kvs) defs)
                | .enum =>
                  match jlookup kvs "enum" with
                  | some (.jarr vs) =>
                    .ok (.wEnum name (.jobj kvs) defs vs (Combo.init.addItemsN vs.length))
                  | _ => .err
                | .object =>
                  match jlookup kvs "properties" with
                  | none => .ok (.wObject name (.jobj kvs) defs [])
                  | some (.jobj ps) =>
                    match buildProps f ps ctx defs with
                    | some props => .ok (.wObject name (.jobj kvs) defs props)
                    | none => .err
                  | some _ => .err
                | .string =>
                  match lineedit_from_schema kvs with
                  | some e => .ok (.wString name (.jobj kvs) defs e)
                  | none => .err
                | .integer =>
                  match set_limits_int kvs SpinBox.init with
                  | some b => .ok (.wInt name (.jobj kvs) defs b)
                  | none => .err
                | .number =>
                  match set_limits_num kvs DSpinBox.init with
                  | some b => .ok (.wNum name (.jobj kvs) defs b)
                  | none => .err
                | .boolean => .ok (.wBool name (.jobj kvs) defs false)
                | .array =>
                  match jlookup kvs "items" with
                  | none => .unsupportedErr
                  | some its =>
                    let addl : Option JSON :=
                      match jlookup kvs "additionalItems" with
                      | some .jnull => none
                      | x => x
                    .ok (.wArray name (.jobj kvs) defs ctx its addl [])
              match res with
              | .ok w => some w
              | .unsupportedErr => some (.wUnsupported name (.jobj kvs) defs)
              | .err => none
          | _ => none
    | _ => none
termination_by structural f => f

/-- `_create_widget`: construction followed by the `initialise()` hook, which
loads the schema's `default` through the node's own `load_json_object` when
one is present. -/
def create_widget : Nat → String → JSON → Ctx → Option JSON → Option Widget
  | 0, _, _, _, _ => none
  | f + 1, name, schema, ctx, parentDefs =>
    match construct_widget f name schema ctx parentDefs with
    | none => none
    | some w =>
      match jsonLookup w.schemaOf "default" with
      | some d => load_json_object f w d
      | none => some w
termination_by structural f => f

/-- Child construction of `JSONObjectWidget.__init__`: one `_create_widget`
per `properties` entry, in schema order, with the object itself as parent. -/
def buildProps : Nat → List (String × JSON) → Ctx → JSON → Option (List (String × Widget))
  | 0, _, _, _ => none
  | _ + 1, [], _, _ => some []
  | f + 1, (k, v) :: rest, ctx, defs =>
    match create_widget f k v ctx (some defs) with
    | none => none
    | some w =>
      match buildProps f rest ctx defs with
      | none => none
      | some ps => some ((k, w) :: ps)
termination_by structural f => f

/-- `load_json_object` of every widget class.  `none` models a raising call:
a type mismatch between the value and the control, a `KeyError` on an object
key without a matching property, a `ValueError` on an enum value absent from
the enum list, or a failing child construction inside an array append. -/
def load_json_object : Nat → Widget → JSON → Option Widget
  | 0, _, _ => none
  | _ + 1, .wUnsupported n s d, _ => some (.wUnsupported n s d)
  | f + 1, .wObject n s d props, v =>
    match v with
    | .jobj kvs => (loadProps f props kvs).map fun props2 => .wObject n s d props2
    | _ => none
  | _ + 1, .wString n s d e, v =>
    match v with
    | .jstr str => some (.wString n s d (e.setText str))
    | _ => none
  | _ + 1, .wInt n s d b, v => (asInt v).map fun m => .wInt n s d (b.setValue m)
  | _ + 1, .wNum n s d b, v => (asRat v).map fun q => .wNum n s d (b.setValue q)
  | _ + 1, .wBool n s d _, v =>
    match v with
    | .jbool b => some (.wBool n s d b)
    | _ => none
  | _ + 1, .wEnum n s d vals c, v =>
    (listIndex vals v).map fun i => .wEnum n s d vals (c.setCurrentIndex (i : Int))
  | f + 1, .wArray n s d ctx its addl cs, v =>
    match v with
    | .jarr xs => (loadArr f ctx its addl d cs 0 xs).map fun cs2 => .wArray n s d ctx its addl cs2
    | _ => none
termination_by structural f => f

/-- The loop of `JSONObjectWidget.load_json_object`: for every key of the
incoming mapping, in order, delegate to the child of that name (`KeyError`,
hence `none`, when there is none). -/
def loadProps : Nat → List (String × Widget) → List (String × JSON) → Option (List (String × Widget))
  | 0, _, _ => none
  | _ + 1, props, [] => some props
  | f + 1, props, (k, v) :: rest =>
    match propLookup props k with
    | none => none
    | some child =>
      match load_json_object f child v with
      | none => none
      | some c2 => loadProps f (propReplace props k c2) rest
termination_by structural f => f

/-- The loop of `JSONArrayWidget.load_json_object`: element `i` is loaded
into the existing child at `i` when there is one, otherwise appended through
`add_item`. -/
def loadArr : Nat → Ctx → JSON → Option JSON → JSON → List Widget → Nat → List JSON → Option (List Widget)
  | 0, _, _, _, _, _, _, _ => none
  | _ + 1, _, _, _, _, cs, _, [] => some cs
  | f + 1, ctx, its, addl, defs, cs, i, x :: rest =>
    if h : i < cs.length then
      match load_json_object f cs[i] x with
      | none => none
      | some c2 => loadArr f ctx its addl defs (cs.set i c2) (i + 1) rest
    else
      match add_item f ctx its addl defs cs x with
      | none => none
      | some cs2 => loadArr f ctx its addl defs cs2 (i + 1) rest
termination_by structural f => f

/-- `JSONArrayWidget.add_item(data)`: build a child for the next index from
`_get_item_schema`, append it, and load `data` into it unless `data` is
`None` (JSON `null`). -/
def add_item : Nat → Ctx → JSON → Option JSON → JSON → List Widget → JSON → Option (List Widget)
  | 0, _, _, _, _, _, _ => none
  | f + 1, ctx, its, addl, defs, cs, x =>
    match get_item_schema its addl cs.length with
    | none => none
    | some s =>
      match create_widget f ("Item #" ++ toString cs.length) s ctx (some defs) with
      | none => none
      | some obj =>
        match x with
        | .jnull => some (cs ++ [obj])
        | x =>
          match load_json_object f obj x with
          | none => none
          | some obj2 => some (cs ++ [obj2])
termination_by structural f => f

end

mutual

/-- `dump_json_object` of every widget class.  `none` models a raising call
(only the enum subscription can raise, on an empty enum list). -/
def dump_json_object : Widget → Option JSON
  | .wUnsupported _ _ _ => some (.jstr "(unsupported)")
  | .wObject _ _ _ props => (dumpProps props).map .jobj
  | .wString _ _ _ e => some (.jstr e.text)
  | .wInt _ _ _ b => some (.jint b.val)
  | .wNum _ _ _ b => some (.jnum b.val)
  | .wBool _ _ _ c => some (.jbool c)
  | .wEnum _ _ _ vals c => pyGet vals c.currentIndex
  | .wArray _ _ _ _ _ _ cs => (dumpChildren cs).map .jarr

/-- The dict comprehension of `JSONObjectWidget.dump_json_object`: every
declared property contributes its dumped value. -/
def dumpProps : List (String × Widget) → Option (List (String × JSON))
  | [] => some []
  | (k, w) :: r =>
    match dump_json_object w, dumpProps r with
    | some j, some t => some ((k, j) :: t)
    | _, _ => none

/-- The list comprehension of `JSONArrayWidget.dump_json_object`. -/
def dumpChildren : List Widget → Option (List JSON)
  | [] => some []
  | w :: r =>
    match dump_json_object w, dumpChildren r with
    | some j, some t => some (j :: t)
    | _, _ => none

end


mutual

/-- Fit of a JSON value to a node's current shape and input constraints: the
value has the node's type, strings are within the line edit's cap, numerals
within the spin box range (and, for Number, exactly representable at the
box's two decimals), enum values occur in the enum list (whose length the
combo box count matches, as construction guarantees), object values supply
exactly the declared properties in order (with distinct keys, as parsed JSON
has), and sequences are exactly as long as the array's current child list.
This is the regime in which loading is lossless; outside it the controls
truncate, clamp, round, keep stale children, or fail. -/
def fits : Widget → JSON → Bool
  | .wString _ _ _ e, .jstr s => decide (s.length ≤ e.maxLength)
  | .wInt _ _ _ b, .jint n => decide (b.lo ≤ n ∧ n ≤ b.hi)
  | .wNum _ _ _ b, .jnum q => decide (b.lo ≤ q ∧ q ≤ b.hi ∧ (q * 100).den = 1)
  | .wBool _ _ _ _, .jbool _ => true
  | .wEnum _ _ _ vals c, v => decide (c.count = vals.length ∧ v ∈ vals)
  | .wObject _ _ _ props, .jobj kvs =>
    decide (kvs.map Prod.fst).Nodup && fitsProps props kvs
  | .wArray _ _ _ _ _ _ cs, .jarr xs => fitsChildren cs xs
  | _, _ => false

def fitsProps : List (String × Widget) → List (String × JSON) → Bool
  | [], [] => true
  | (k, w) :: ps, (k2, v) :: vs => k == k2 && fits w v && fitsProps ps vs
  | _, _ => false

def fitsChildren : List Widget → List JSON → Bool
  | [], [] => true
  | w :: ws, v :: vs => fits w v && fitsChildren ws vs
  | _, _ => false

end

mutual

/-- The `definitions` invariant of claim C10, as a predicate on a widget tree
given the parent's `definitions` (or `none` at the root): every node stores
its own schema's `definitions` entry when present, else the inherited one,
else the empty dict, and hands its own entry down to its children. -/
def defsOk : Option JSON → Widget → Bool
  | pd, .wObject _ s d props => (d == expectedDefs s pd) && defsOkProps (some d) props
  | pd, .wArray _ s d _ _ _ cs => (d == expectedDefs s pd) && defsOkChildren (some d) cs
  | pd, w => Widget.defsOf w == expectedDefs (Widget.schemaOf w) pd

def defsOkProps : Option JSON → List (String × Widget) → Bool
  | _, [] => true
  | pd, (_, w) :: r => defsOk pd w && defsOkProps pd r

def defsOkChildren : Option JSON → List Widget → Bool
  | _, [] => true
  | pd, w :: r => defsOk pd w && defsOkChildren pd r

end


/-- Concrete object widget used by witnesses: one declared boolean property
named a. -/
def c2props : List (String × Widget) :=
  [("a", .wBool "a" (.jobj [("type", .jstr "boolean")]) (.jobj []) false)]

/-- Schema of C2's counterexample: an object declaring only property a. -/
def c2schema : JSON := .jobj [("type", .jstr "object"),
  ("properties", .jobj [("a", .jobj [("type", .jstr "boolean")])])]

/-- Schema of C1's counterexample: a boolean array with a two-element
default, a well-formed Draft 4 schema. -/
def c1schema : JSON := .jobj [("type", .jstr "array"),
  ("items", .jobj [("type", .jstr "boolean")]),
  ("default", .jarr [.jbool false, .jbool false])]

/-- Schema of C6's counterexample: an unsupported type carrying a default. -/
def c6schema : JSON := .jobj [("type", .jstr "null"), ("default", .jnull)]

/-- Schema of C7's counterexample: integer bounds whose exclusive minimum
exceeds the maximum, a well-formed Draft 4 schema. -/
def c7schema : JSON := .jobj [("type", .jstr "integer"), ("minimum", .jint 5),
  ("exclusiveMinimum", .jbool true), ("maximum", .jint 5)]

/-- Schema of C8's counterexample: a list-valued `type`, valid in Draft 4. -/
def c8schema : JSON := .jobj [("type", .jarr [.jstr "string", .jstr "null"])]

/-- Schema of C5's witness: two declared properties, never loaded. -/
def c5props : List (String × JSON) :=
  [("a", .jobj [("type", .jstr "boolean")]), ("b", .jobj [("type", .jstr "integer")])]

def c5schema : JSON := .jobj [("type", .jstr "object"), ("properties", .jobj c5props)]

/-- Schema of C7's witness: both integer bounds present and exclusive. -/
def c7wkvs : List (String × JSON) := [("type", .jstr "integer"), ("minimum", .jint 3),
  ("exclusiveMinimum", .jbool true), ("maximum", .jint 7), ("exclusiveMaximum", .jbool true)]

/-- Schema of C7's second witness: a number schema with `minimum: 1,
exclusiveMinimum: true`, the spec's own example — lower bound 1.01. -/
def c7nkvs : List (String × JSON) := [("type", .jstr "number"), ("minimum", .jint 1),
  ("exclusiveMinimum", .jbool true)]

/-- Schema of C10's witness: an object redeclaring `definitions`, with a
nested object child that inherits it. -/
def c10schema : JSON := .jobj [("type", .jstr "object"),
  ("definitions", .jobj [("x", .jbool true)]),
  ("properties", .jobj
    [("a", .jobj [("type", .jstr "boolean")]),
     ("b", .jobj [("type", .jstr "object"),
       ("properties", .jobj [("c", .jobj [("type", .jstr "integer")])])])])]

/-- Concrete array node for C4's witness: three boolean children. -/
def c4cs : List Widget :=
  [.wBool "Item #0" (.jobj [("type", .jstr "boolean")]) (.jobj []) false,
   .wBool "Item #1" (.jobj [("type", .jstr "boolean")]) (.jobj []) false,
   .wBool "Item #2" (.jobj [("type", .jstr "boolean")]) (.jobj []) true]

/-- A widget tree and a matching value for the C1 witness: an object of a
Boolean and an Integer property. -/
def c1w : Widget := .wObject "o" (.jobj []) (.jobj [])
  [("a", .wBool "a" (.jobj []) (.jobj []) false),
   ("b", .wInt "b" (.jobj []) (.jobj []) ⟨0, 99, 0⟩)]

def c1v : JSON := .jobj [("a", .jbool true), ("b", .jint 7)]

/-- Schema for the C6 witness: a boolean with a default that fits it. -/
def c6wschema : JSON := .jobj [("type", .jstr "boolean"), ("default", .jbool true)]

theorem propReplace_map_fst (l : List (String × Widget)) (k : String) (w : Widget) :
    (propReplace l k w).map Prod.fst = l.map Prod.fst := by
  induction l with
  | nil => rfl
  | cons p r ih =>
    obtain ⟨k0, w0⟩ := p
    by_cases h : k0 = k <;> simp [propReplace, h, ih]

theorem propLookup_replace_none (l : List (String × Widget)) (k0 k : String) (w : Widget)
    (h : propLookup l k = none) : propLookup (propReplace l k0 w) k = none := by
  induction l with
  | nil => rfl
  | cons p r ih =>
    obtain ⟨k1, w1⟩ := p
    by_cases h1 : k1 = k
    · simp [propLookup, h1] at h
    · simp only [propLookup, if_neg h1] at h
      by_cases h2 : k1 = k0
      · subst h2
        simp [propReplace, propLookup, h1, h]
      · simp [propReplace, propLookup, h1, h2, ih h]

theorem propLookup_replace_other (l : List (String × Widget)) (k0 k : String) (w : Widget)
    (h : k ≠ k0) : propLookup (propReplace l k0 w) k = propLookup l k := by
  induction l with
  | nil => rfl
  | cons p r ih =>
    obtain ⟨k1, w1⟩ := p
    by_cases h1 : k1 = k0
    · subst h1
      have hk : ¬ k1 = k := fun hh => h hh.symm
      simp [propReplace, propLookup, hk]
    · by_cases h2 : k1 = k
      · subst h2
        simp [propReplace, propLookup, h1]
      · simp [propReplace, propLookup, h1, h2, ih]

theorem propLookup_replace_self (l : List (String × Widget)) (k : String) (c w : Widget)
    (h : propLookup l k = some c) : propLookup (propReplace l k w) k = some w := by
  induction l with
  | nil => simp [propLookup] at h
  | cons p r ih =>
    obtain ⟨k1, w1⟩ := p
    by_cases h1 : k1 = k
    · simp [propReplace, propLookup, h1]
    · simp only [propLookup, if_neg h1] at h
      simp [propReplace, propLookup, h1, ih h]

theorem listIndex_eq_none (vals : List JSON) (v : JSON) :
    listIndex vals v = none ↔ v ∉ vals := by
  induction vals with
  | nil => simp [listIndex]
  | cons x r ih =>
    by_cases h : x = v
    · simp [listIndex, h]
    · simp only [listIndex, if_neg h, Option.map_eq_none', ih, List.mem_cons]
      constructor
      · intro hm hc
        exact hc.elim (fun he => h he.symm) hm
      · intro hm hc
        exact hm (Or.inr hc)

theorem listIndex_getElem (vals : List JSON) (v : JSON) (i : Nat)
    (h : listIndex vals v = some i) : vals[i]? = some v := by
  induction vals generalizing i with
  | nil => simp [listIndex] at h
  | cons x r ih =>
    by_cases hx : x = v
    · simp only [listIndex, if_pos hx] at h
      obtain rfl := Option.some_injective _ h
      simp [hx]
    · simp only [listIndex, if_neg hx, Option.map_eq_some'] at h
      obtain ⟨j, hj, rfl⟩ := h
      simpa using ih j hj

theorem listIndex_lt (vals : List JSON) (v : JSON) (i : Nat)
    (h : listIndex vals v = some i) : i < vals.length := by
  have h2 := listIndex_getElem vals v i h
  exact (List.getElem?_eq_some.mp h2).1

/-- A rational exactly representable with two decimals is unchanged by the
spin box's rounding. -/
theorem round2_den_one (q : Rat) (h : (q * 100).den = 1) : round2 q = q := by
  unfold round2
  have h1 : ((q * 100).num : Rat) = q * 100 := by
    rw [← Rat.den_eq_one_iff]
    exact h
  rw [show round (q * 100) = (q * 100).num by rw [← h1]; exact round_intCast _]
  rw [h1]
  field_simp

theorem loadProps_unmatched_key (f : Nat) (props : List (String × Widget))
    (kvs : List (String × JSON)) (k : String) (v : JSON)
    (hmem : (k, v) ∈ kvs) (hnone : propLookup props k = none) :
    loadProps f props kvs = none := by
  induction kvs generalizing props f with
  | nil => simp at hmem
  | cons p rest ih =>
    obtain ⟨k0, v0⟩ := p
    cases f with
    | zero => rfl
    | succ f =>
      rcases List.mem_cons.mp hmem with heq | htail
      · cases heq
        simp [loadProps, hnone]
      · cases hlk : propLookup props k0 with
        | none => simp [loadProps, hlk]
        | some child =>
          cases hld : load_json_object f child v0 with
          | none => simp [loadProps, hlk, hld]
          | some c2 =>
            simp only [loadProps, hlk, hld]
            exact ih f _ htail (propLookup_replace_none props k0 k c2 hnone)

theorem loadProps_other_keys (f : Nat) (props : List (String × Widget))
    (kvs : List (String × JSON)) (props2 : List (String × Widget)) (k : String)
    (h : loadProps f props kvs = some props2) (hk : k ∉ kvs.map Prod.fst) :
    propLookup props2 k = propLookup props k := by
  induction kvs generalizing props f with
  | nil =>
    cases f with
    | zero => simp [loadProps] at h
    | succ f =>
      simp only [loadProps] at h
      rw [← Option.some_injective _ h]
  | cons p rest ih =>
    obtain ⟨k0, v0⟩ := p
    cases f with
    | zero => simp [loadProps] at h
    | succ f =>
      cases hlk : propLookup props k0 with
      | none => simp only [loadProps, hlk] at h; exact Option.noConfusion h
      | some child =>
        cases hld : load_json_object f child v0 with
        | none => simp only [loadProps, hlk, hld] at h; exact Option.noConfusion h
        | some c2 =>
          simp only [loadProps, hlk, hld] at h
          have hk2 : k ≠ k0 ∧ k ∉ rest.map Prod.fst := by
            simp only [List.map_cons, List.mem_cons, not_or] at hk
            exact hk
          rw [ih f _ h hk2.2]
          exact propLookup_replace_other props k0 k c2 hk2.1

theorem loadProps_delegates (f : Nat) (props : List (String × Widget))
    (kvs : List (String × JSON)) (props2 : List (String × Widget))
    (hnd : (kvs.map Prod.fst).Nodup) (h : loadProps f props kvs = some props2) :
    ∀ k v, (k, v) ∈ kvs → ∃ c f2 c2, propLookup props k = some c
      ∧ load_json_object f2 c v = some c2 ∧ propLookup props2 k = some c2 := by
  induction kvs generalizing props f with
  | nil =>
    intro k v hm
    simp at hm
  | cons p rest ih =>
    obtain ⟨k0, v0⟩ := p
    cases f with
    | zero => simp [loadProps] at h
    | succ f =>
      cases hlk : propLookup props k0 with
      | none => simp only [loadProps, hlk] at h; exact Option.noConfusion h
      | some child =>
        cases hld : load_json_object f child v0 with
        | none => simp only [loadProps, hlk, hld] at h; exact Option.noConfusion h
        | some c2 =>
          simp only [loadProps, hlk, hld] at h
          intro k v hm
          have hnd2 : k0 ∉ rest.map Prod.fst ∧ (rest.map Prod.fst).Nodup := by
            rw [List.map_cons, List.nodup_cons] at hnd
            exact hnd
          rcases List.mem_cons.mp hm with heq | htail
          · injection heq with h1 h2
            subst h1
            subst h2
            refine ⟨child, f, c2, hlk, hld, ?_⟩
            rw [loadProps_other_keys f _ rest props2 k h hnd2.1]
            exact propLookup_replace_self props k child c2 hlk
          · obtain ⟨c, f2, c22, hlk2, hld2, hfin⟩ := ih f _ hnd2.2 h k v htail
            have hkk0 : k ≠ k0 := fun he =>
              hnd2.1 (he ▸ (List.mem_map.mpr ⟨(k, v), htail, rfl⟩))
            rw [propLookup_replace_other props k0 k c2 hkk0] at hlk2
            exact ⟨c, f2, c22, hlk2, hld2, hfin⟩

/-- C2 (corrected): loading a mapping into an Object node delegates every
key that matches a declared property to that child's `load_json_object`
(first conjunct), but a key with no matching property does not complete
silently: `self.properties[k]` raises `KeyError`, so the whole call fails
(second conjunct), however many or few unmatched keys there are. -/
theorem C2_object_load_unmatched_key_raises (f : Nat) (n : String) (s d : JSON)
    (props : List (String × Widget)) (kvs : List (String × JSON)) :
    (∀ w2, (kvs.map Prod.fst).Nodup →
      load_json_object f (.wObject n s d props) (.jobj kvs) = some w2 →
      ∀ k v, (k, v) ∈ kvs → ∃ c f2 c2 props2, propLookup props k = some c
        ∧ load_json_object f2 c v = some c2 ∧ w2 = .wObject n s d props2
        ∧ propLookup props2 k = some c2)
    ∧ (∀ k v, (k, v) ∈ kvs → propLookup props k = none →
      load_json_object f (.wObject n s d props) (.jobj kvs) = none) := by
  constructor
  · intro w2 hnd hload k v hm
    cases f with
    | zero => exact absurd hload (by simp [load_json_object])
    | succ f =>
      simp only [load_json_object, Option.map_eq_some'] at hload
      obtain ⟨props2, hlp, rfl⟩ := hload
      obtain ⟨c, f2, c2, h1, h2, h3⟩ := loadProps_delegates f props kvs props2 hnd hlp k v hm
      exact ⟨c, f2, c2, props2, h1, h2, rfl, h3⟩
  · intro k v hm hnone
    cases f with
    | zero => rfl
    | succ f =>
      simp [load_json_object, loadProps_unmatched_key f props kvs k v hm hnone]

theorem C2_witness :
    load_json_object 3 (.wObject "o" (.jobj []) (.jobj []) c2props)
      (.jobj [("b", .jbool true)]) = none :=
  (C2_object_load_unmatched_key_raises 3 "o" (.jobj []) (.jobj []) c2props
    [("b", .jbool true)]).2 "b" (.jbool true) (by simp) rfl

theorem C2_counterexample :
    (create_widget 10 "o" c2schema ctx0 none).isSome = true
    ∧ ((create_widget 10 "o" c2schema ctx0 none).bind fun w =>
        load_json_object 10 w (.jobj [("b", .jbool true)])) = none :=
  ⟨rfl, rfl⟩

/-- C3: loading a value into an Enum node selects the entry equal to the
value — the immediate dump returns exactly that value — and a value absent
from the enum list makes `load_json_object` fail (the error the spec names
`ValueNotInEnumError` propagates to the caller instead of being swallowed).
The combo box count matches the enum list length, as construction
guarantees. -/
theorem C3_enum_load_selects_or_fails (f : Nat) (n : String) (s d : JSON)
    (vals : List JSON) (c : Combo) (v : JSON) (hc : c.count = vals.length) :
    ((load_json_object (f + 1) (.wEnum n s d vals c) v).bind dump_json_object
      = if v ∈ vals then some v else none)
    ∧ (load_json_object (f + 1) (.wEnum n s d vals c) v = none ↔ v ∉ vals) := by
  have hl : load_json_object (f + 1) (.wEnum n s d vals c) v
      = (listIndex vals v).map fun i => .wEnum n s d vals (c.setCurrentIndex (i : Int)) := by
    simp only [load_json_object]
    cases listIndex vals v <;> rfl
  cases h : listIndex vals v with
  | none =>
    have hv : v ∉ vals := (listIndex_eq_none vals v).mp h
    rw [hl, h]
    simp [hv]
  | some i =>
    have hv : v ∈ vals := by
      by_contra hcon
      rw [(listIndex_eq_none vals v).mpr hcon] at h
      exact Option.noConfusion h
    have hlt := listIndex_lt vals v i h
    have hget := listIndex_getElem vals v i h
    have hcond : (0 : Int) ≤ (i : Int) ∧ (i : Int) < ((c.count : Nat) : Int) := by
      rw [hc]
      exact ⟨Int.natCast_nonneg i, by exact_mod_cast hlt⟩
    have hidx : (Combo.setCurrentIndex c (i : Int)).currentIndex = (i : Int) := by
      simp [Combo.setCurrentIndex, hcond]
    have hdump : dump_json_object (.wEnum n s d vals (c.setCurrentIndex (i : Int))) = some v := by
      show pyGet vals (Combo.setCurrentIndex c (i : Int)).currentIndex = some v
      rw [hidx]
      unfold pyGet
      rw [if_pos (Int.natCast_nonneg i)]
      simpa using hget
    rw [hl, h]
    simp [hdump, hv]

theorem C3_witness :
    ((load_json_object 1 (.wEnum "e" (.jobj []) (.jobj []) [.jstr "a", .jstr "b"] ⟨2, 0⟩)
        (.jstr "b")).bind dump_json_object = some (.jstr "b"))
    ∧ (load_json_object 1 (.wEnum "e" (.jobj []) (.jobj []) [.jstr "a", .jstr "b"] ⟨2, 0⟩)
        (.jstr "z") = none) := by
  constructor
  · have h := (C3_enum_load_selects_or_fails 0 "e" (.jobj []) (.jobj [])
      [.jstr "a", .jstr "b"] ⟨2, 0⟩ (.jstr "b") rfl).1
    rw [if_pos (by decide : JSON.jstr "b" ∈ [JSON.jstr "a", JSON.jstr "b"])] at h
    exact h
  · exact (C3_enum_load_selects_or_fails 0 "e" (.jobj []) (.jobj [])
      [.jstr "a", .jstr "b"] ⟨2, 0⟩ (.jstr "z") rfl).2.mpr (by decide)

theorem C1_counterexample :
    ((create_widget 10 "a" c1schema ctx0 none).bind fun w =>
      (load_json_object 10 w (.jarr [.jbool true])).bind dump_json_object)
      = some (.jarr [.jbool true, .jbool false])
    ∧ JSON.jarr [.jbool true, .jbool false] ≠ JSON.jarr [.jbool true] :=
  ⟨rfl, by decide⟩

theorem C6_counterexample :
    jsonLookup c6schema "default" = some .jnull
    ∧ ((create_widget 10 "u" c6schema ctx0 none).bind dump_json_object
        = some (.jstr "(unsupported)"))
    ∧ JSON.jstr "(unsupported)" ≠ JSON.jnull :=
  ⟨rfl, rfl, by decide⟩

theorem C7_counterexample :
    ((create_widget 10 "n" c7schema ctx0 none).bind Widget.intBounds = some (5, 5))
    ∧ (5 : Int) ≠ 5 + 1 :=
  ⟨rfl, by decide⟩

theorem widget_class_selection_typed (kvs : List (String × JSON)) (t : String)
    (henum : jlookup kvs "enum" = none) (htype : jlookup kvs "type" = some (.jstr t)) :
    widget_class_selection kvs = some (typeKind t) := by
  simp only [widget_class_selection, henum, htype]

theorem buildProps_keys (f : Nat) (ps : List (String × JSON)) (ctx : Ctx) (defs : JSON)
    (props : List (String × Widget)) (h : buildProps f ps ctx defs = some props) :
    props.map Prod.fst = ps.map Prod.fst := by
  induction ps generalizing f props with
  | nil =>
    cases f with
    | zero => simp [buildProps] at h
    | succ f =>
      simp only [buildProps, Option.some.injEq] at h
      subst h
      rfl
  | cons p rest ih =>
    obtain ⟨k, v⟩ := p
    cases f with
    | zero => simp [buildProps] at h
    | succ f =>
      cases hc : create_widget f k v ctx (some defs) with
      | none => simp only [buildProps, hc] at h; exact Option.noConfusion h
      | some w =>
        cases hb : buildProps f rest ctx defs with
        | none => simp only [buildProps, hc, hb] at h; exact Option.noConfusion h
        | some ps2 =>
          simp only [buildProps, hc, hb, Option.some.injEq] at h
          subst h
          simp [ih f ps2 hb]

theorem dumpProps_keys (props : List (String × Widget)) (out : List (String × JSON))
    (h : dumpProps props = some out) : out.map Prod.fst = props.map Prod.fst := by
  induction props generalizing out with
  | nil =>
    simp only [dumpProps, Option.some.injEq] at h
    subst h
    rfl
  | cons p rest ih =>
    obtain ⟨k, w⟩ := p
    cases hd : dump_json_object w with
    | none => simp only [dumpProps, hd] at h; exact Option.noConfusion h
    | some j =>
      cases hr : dumpProps rest with
      | none => simp only [dumpProps, hd, hr] at h; exact Option.noConfusion h
      | some t =>
        simp only [dumpProps, hd, hr, Option.some.injEq] at h
        subst h
        simp [ih t hr]

theorem loadProps_keys (f : Nat) (props : List (String × Widget))
    (kvs : List (String × JSON)) (props2 : List (String × Widget))
    (h : loadProps f props kvs = some props2) :
    props2.map Prod.fst = props.map Prod.fst := by
  induction kvs generalizing f props with
  | nil =>
    cases f with
    | zero => simp [loadProps] at h
    | succ f =>
      simp only [loadProps, Option.some.injEq] at h
      subst h
      rfl
  | cons p rest ih =>
    obtain ⟨k, v⟩ := p
    cases f with
    | zero => simp [loadProps] at h
    | succ f =>
      cases hlk : propLookup props k with
      | none => simp only [loadProps, hlk] at h; exact Option.noConfusion h
      | some child =>
        cases hld : load_json_object f child v with
        | none => simp only [loadProps, hlk, hld] at h; exact Option.noConfusion h
        | some c2 =>
          simp only [loadProps, hlk, hld] at h
          rw [ih f _ h, propReplace_map_fst]

theorem load_object_shape (f : Nat) (n : String) (s d : JSON)
    (props : List (String × Widget)) (v : JSON) (w : Widget)
    (h : load_json_object f (.wObject n s d props) v = some w) :
    ∃ props2, w = .wObject n s d props2 ∧ props2.map Prod.fst = props.map Prod.fst := by
  cases f with
  | zero => exact absurd h (by simp [load_json_object])
  | succ f =>
    cases v with
    | jobj kvs =>
      simp only [load_json_object, Option.map_eq_some'] at h
      obtain ⟨props2, hlp, rfl⟩ := h
      exact ⟨props2, rfl, loadProps_keys f props kvs props2 hlp⟩
    | jnull => exact absurd h (by simp [load_json_object])
    | jbool b => exact absurd h (by simp [load_json_object])
    | jint m => exact absurd h (by simp [load_json_object])
    | jnum q => exact absurd h (by simp [load_json_object])
    | jstr t => exact absurd h (by simp [load_json_object])
    | jarr xs => exact absurd h (by simp [load_json_object])

/-- Construction of an Object node under its selection hypotheses, with
successful child construction. -/
theorem construct_object_some (f : Nat) (n : String) (kvs : List (String × JSON))
    (ctx : Ctx) (pd : Option JSON) (ps : List (String × JSON))
    (props : List (String × Widget))
    (hid : jlookup kvs "id" = none) (href : jlookup kvs "$ref" = none)
    (henum : jlookup kvs "enum" = none)
    (htype : jlookup kvs "type" = some (.jstr "object"))
    (hprops : jlookup kvs "properties" = some (.jobj ps))
    (hb : buildProps f ps ctx (expectedDefs (.jobj kvs) pd) = some props) :
    construct_widget (f + 1) n (.jobj kvs) ctx pd
      = some (.wObject n (.jobj kvs) (expectedDefs (.jobj kvs) pd) props) := by
  have hsel : widget_class_selection kvs = some WKind.object :=
    widget_class_selection_typed kvs "object" henum htype
  simp only [construct_widget, jsonLookup, hid, derefChain, href, hsel, hprops, hb]

/-- Construction of an Object node fails when a child's construction fails. -/
theorem construct_object_none (f : Nat) (n : String) (kvs : List (String × JSON))
    (ctx : Ctx) (pd : Option JSON) (ps : List (String × JSON))
    (hid : jlookup kvs "id" = none) (href : jlookup kvs "$ref" = none)
    (henum : jlookup kvs "enum" = none)
    (htype : jlookup kvs "type" = some (.jstr "object"))
    (hprops : jlookup kvs "properties" = some (.jobj ps))
    (hb : buildProps f ps ctx (expectedDefs (.jobj kvs) pd) = none) :
    construct_widget (f + 1) n (.jobj kvs) ctx pd = none := by
  have hsel : widget_class_selection kvs = some WKind.object :=
    widget_class_selection_typed kvs "object" henum htype
  simp only [construct_widget, jsonLookup, hid, derefChain, href, hsel, hprops, hb]

/-- C5: an Object node's `dump_json_object` returns a mapping whose keys are
exactly the property names declared in the schema's `properties`, in
declaration order, whether or not any property was ever loaded. -/
theorem C5_object_dump_covers_all_properties (f : Nat) (n : String)
    (kvs ps : List (String × JSON)) (ctx : Ctx) (pd : Option JSON) (w : Widget) (j : JSON)
    (hid : jlookup kvs "id" = none) (href : jlookup kvs "$ref" = none)
    (henum : jlookup kvs "enum" = none)
    (htype : jlookup kvs "type" = some (.jstr "object"))
    (hprops : jlookup kvs "properties" = some (.jobj ps))
    (hw : create_widget f n (.jobj kvs) ctx pd = some w)
    (hd : dump_json_object w = some j) :
    ∃ out, j = .jobj out ∧ out.map Prod.fst = ps.map Prod.fst := by
  cases f with
  | zero => exact absurd hw (by simp [create_widget])
  | succ f =>
    cases f with
    | zero => exact absurd hw (by simp [create_widget, construct_widget])
    | succ f =>
      cases hb : buildProps f ps ctx (expectedDefs (.jobj kvs) pd) with
      | none =>
        have hcw := construct_object_none f n kvs ctx pd ps hid href henum htype hprops hb
        simp only [create_widget, hcw] at hw
        exact Option.noConfusion hw
      | some props =>
        have hcw := construct_object_some f n kvs ctx pd ps props hid href henum htype hprops hb
        simp only [create_widget, hcw, Widget.schemaOf, jsonLookup] at hw
        have hkeys := buildProps_keys f ps ctx _ props hb
        have hobj : ∃ props2, w = .wObject n (.jobj kvs) (expectedDefs (.jobj kvs) pd) props2
            ∧ props2.map Prod.fst = ps.map Prod.fst := by
          cases hdef : jlookup kvs "default" with
          | none =>
            rw [hdef] at hw
            simp only [Option.some.injEq] at hw
            exact ⟨props, hw.symm, hkeys⟩
          | some dflt =>
            rw [hdef] at hw
            obtain ⟨props2, rfl, hk2⟩ :=
              load_object_shape (f + 1) n (.jobj kvs) (expectedDefs (.jobj kvs) pd) props dflt w hw
            exact ⟨props2, rfl, hk2.trans hkeys⟩
        obtain ⟨props2, rfl, hk2⟩ := hobj
        cases hdp : dumpProps props2 with
        | none => simp only [dump_json_object, hdp] at hd; exact Option.noConfusion hd
        | some out =>
          simp only [dump_json_object, hdp, Option.map_some', Option.some.injEq] at hd
          exact ⟨out, hd.symm, (dumpProps_keys props2 out hdp).trans hk2⟩

/-- Construction of a node whose selected variant is the Unsupported
placeholder: it always succeeds (the placeholder constructor cannot fail). -/
theorem construct_unsupported (f : Nat) (n : String) (kvs : List (String × JSON))
    (ctx : Ctx) (pd : Option JSON)
    (hid : jlookup kvs "id" = none) (href : jlookup kvs "$ref" = none)
    (hsel : widget_class_selection kvs = some WKind.unsupported) :
    construct_widget (f + 1) n (.jobj kvs) ctx pd
      = some (.wUnsupported n (.jobj kvs) (expectedDefs (.jobj kvs) pd)) := by
  simp only [construct_widget, jsonLookup, hid, derefChain, href, hsel]

/-- An Unsupported node also survives `initialise()`: its `load_json_object`
is a no-op, so `_create_widget` always returns it, default or no default. -/
theorem create_unsupported_total (f : Nat) (n : String) (kvs : List (String × JSON))
    (ctx : Ctx) (pd : Option JSON)
    (hcw : construct_widget (f + 1) n (.jobj kvs) ctx pd
      = some (.wUnsupported n (.jobj kvs) (expectedDefs (.jobj kvs) pd))) :
    create_widget (f + 2) n (.jobj kvs) ctx pd
      = some (.wUnsupported n (.jobj kvs) (expectedDefs (.jobj kvs) pd)) := by
  simp only [create_widget, hcw, Widget.schemaOf, jsonLookup]
  cases hdef : jlookup kvs "default" with
  | none => rfl
  | some dd => simp only [load_json_object]

/-- C8 (amended): the factory picks the variant in priority order — `enum`
first (even when `type` is also present), then a present string-valued
`type` through the fixed `schema_type_to_widget_class` table with
Unsupported as the default for any unknown string, and Unsupported when
neither key is present.  An Unsupported-selected node always constructs
without raising, its `load_json_object` is a no-op, and its
`dump_json_object` is the fixed sentinel.  A list-valued `type`, however —
valid Draft 4, e.g. `["string", "null"]` — does NOT degrade to Unsupported:
`schema_type_to_widget_class.get` raises `TypeError` on the unhashable key,
outside the factory's `try/except`, and construction of the node (and with
it the whole tree) aborts; the unconditional claim is refuted by the
counterexample. -/
theorem C8_variant_selection_amended :
    (∀ (kvs : List (String × JSON)) (e : JSON), jlookup kvs "enum" = some e →
      widget_class_selection kvs = some WKind.enum)
    ∧ (∀ (kvs : List (String × JSON)) (t : String), jlookup kvs "enum" = none →
        jlookup kvs "type" = some (.jstr t) →
        widget_class_selection kvs = some (typeKind t)
        ∧ (t ≠ "object" → t ≠ "string" → t ≠ "integer" → t ≠ "number" → t ≠ "boolean" →
            t ≠ "array" → typeKind t = WKind.unsupported))
    ∧ (∀ kvs : List (String × JSON), jlookup kvs "enum" = none → jlookup kvs "type" = none →
        widget_class_selection kvs = some WKind.unsupported)
    ∧ (∀ (f : Nat) (n : String) (kvs : List (String × JSON)) (ctx : Ctx) (pd : Option JSON),
        jlookup kvs "id" = none → jlookup kvs "$ref" = none →
        widget_class_selection kvs = some WKind.unsupported →
        create_widget (f + 2) n (.jobj kvs) ctx pd
          = some (.wUnsupported n (.jobj kvs) (expectedDefs (.jobj kvs) pd)))
    ∧ (∀ (f : Nat) (n : String) (s d v : JSON),
        load_json_object (f + 1) (.wUnsupported n s d) v = some (.wUnsupported n s d))
    ∧ (∀ n s d, dump_json_object (.wUnsupported n s d) = some (.jstr "(unsupported)"))
    ∧ (∀ (f : Nat) (n : String) (kvs : List (String × JSON)) (ctx : Ctx) (pd : Option JSON)
        (ts : List JSON),
        jlookup kvs "id" = none → jlookup kvs "$ref" = none →
        jlookup kvs "enum" = none → jlookup kvs "type" = some (.jarr ts) →
        construct_widget (f + 1) n (.jobj kvs) ctx pd = none) := by
  refine ⟨?_, ?_, ?_, ?_, ?_, ?_, ?_⟩
  · intro kvs e he
    simp only [widget_class_selection, he]
  · intro kvs t he ht
    refine ⟨by simp only [widget_class_selection, he, ht], ?_⟩
    intro h1 h2 h3 h4 h5 h6
    simp only [typeKind, if_neg h1, if_neg h2, if_neg h3, if_neg h4, if_neg h5, if_neg h6]
  · intro kvs he ht
    simp only [widget_class_selection, he, ht]
  · intro f n kvs ctx pd hid href hsel
    exact create_unsupported_total f n kvs ctx pd
      (construct_unsupported f n kvs ctx pd hid href hsel)
  · intro f n s d v
    simp only [load_json_object]
  · intro n s d
    rfl
  · intro f n kvs ctx pd ts hid href henum htype
    have hsel : widget_class_selection kvs = none := by
      simp only [widget_class_selection, henum, htype]
    simp only [construct_widget, jsonLookup, hid, derefChain, href, hsel]

theorem C8_witness :
    widget_class_selection [("enum", .jarr [.jint 1]), ("type", .jstr "string")]
      = some WKind.enum
    ∧ widget_class_selection [("type", .jstr "null")] = some (typeKind "null")
    ∧ typeKind "null" = WKind.unsupported
    ∧ create_widget 2 "x" (.jobj [("type", .jstr "null")]) ctx0 none
      = some (.wUnsupported "x" (.jobj [("type", .jstr "null")])
          (expectedDefs (.jobj [("type", .jstr "null")]) none))
    ∧ load_json_object 1 (.wUnsupported "x" .jnull .jnull) (.jint 3)
      = some (.wUnsupported "x" .jnull .jnull)
    ∧ dump_json_object (.wUnsupported "x" .jnull .jnull) = some (.jstr "(unsupported)")
    ∧ construct_widget 1 "y" (.jobj [("type", .jarr [.jstr "string", .jstr "null"])])
        ctx0 none = none := by
  obtain ⟨h1, h2, h3, h4, h5, h6, h7⟩ := C8_variant_selection_amended
  refine ⟨h1 [("enum", .jarr [.jint 1]), ("type", .jstr "string")] (.jarr [.jint 1]) rfl,
    (h2 [("type", .jstr "null")] "null" rfl rfl).1, ?_, ?_,
    h5 0 "x" .jnull .jnull (.jint 3), h6 "x" .jnull .jnull,
    h7 0 "y" [("type", .jarr [.jstr "string", .jstr "null"])] ctx0 none
      [.jstr "string", .jstr "null"] rfl rfl rfl rfl⟩
  · exact (h2 [("type", .jstr "null")] "null" rfl rfl).2 (by decide) (by decide) (by decide)
      (by decide) (by decide) (by decide)
  · exact h4 0 "x" [("type", .jstr "null")] ctx0 none rfl rfl
      ((h2 [("type", .jstr "null")] "null" rfl rfl).1.trans
        (by rw [show typeKind "null" = WKind.unsupported from rfl]))

/-- Refutation of C8 as stated: a list-valued `type` (Draft-4-valid) does
not yield the Unsupported placeholder — variant selection raises
(`TypeError` on the unhashable table key, outside the `try/except`) and the
node's construction aborts instead of succeeding as Unsupported. -/
theorem C8_counterexample :
    jlookup [("type", .jarr [.jstr "string", .jstr "null"])] "type"
        = some (.jarr [.jstr "string", .jstr "null"])
    ∧ widget_class_selection [("type", .jarr [.jstr "string", .jstr "null"])] = none
    ∧ construct_widget 5 "x" c8schema ctx0 none = none :=
  ⟨rfl, rfl, rfl⟩

/-- Construction of an Array node whose schema lacks `items`: the
constructor's `UnsupportedSchemaError` is caught by the factory, which
substitutes the Unsupported placeholder. -/
theorem construct_array_missing_items (f : Nat) (n : String) (kvs : List (String × JSON))
    (ctx : Ctx) (pd : Option JSON)
    (hid : jlookup kvs "id" = none) (href : jlookup kvs "$ref" = none)
    (henum : jlookup kvs "enum" = none)
    (htype : jlookup kvs "type" = some (.jstr "array"))
    (hitems : jlookup kvs "items" = none) :
    construct_widget (f + 1) n (.jobj kvs) ctx pd
      = some (.wUnsupported n (.jobj kvs) (expectedDefs (.jobj kvs) pd)) := by
  have hsel : widget_class_selection kvs = some WKind.array :=
    (widget_class_selection_typed kvs "array" henum htype).trans
      (by rw [show typeKind "array" = WKind.array from rfl])
  simp only [construct_widget, jsonLookup, hid, derefChain, href, hsel, hitems]

/-- C9: an array schema without `items` fails its variant constructor with
the schema-shape error, which the factory catches, substituting the
Unsupported placeholder — construction of that node succeeds (first
conjunct), and inside an object the malformed subtree does not abort the
construction of a sibling property (second conjunct). -/
theorem C9_missing_items_degrades_to_unsupported (f : Nat) (n : String)
    (kvs : List (String × JSON)) (ctx : Ctx) (pd : Option JSON)
    (hid : jlookup kvs "id" = none) (href : jlookup kvs "$ref" = none)
    (henum : jlookup kvs "enum" = none)
    (htype : jlookup kvs "type" = some (.jstr "array"))
    (hitems : jlookup kvs "items" = none) :
    create_widget (f + 2) n (.jobj kvs) ctx pd
      = some (.wUnsupported n (.jobj kvs) (expectedDefs (.jobj kvs) pd))
    ∧ ∀ (no k1 k2 : String) (s2 : JSON) (w2 : Widget),
        create_widget (f + 1) k2 s2 ctx (some (.jobj [])) = some w2 →
        create_widget (f + 5) no
          (.jobj [("type", .jstr "object"),
            ("properties", .jobj [(k1, .jobj kvs), (k2, s2)])]) ctx none
          = some (.wObject no
              (.jobj [("type", .jstr "object"),
                ("properties", .jobj [(k1, .jobj kvs), (k2, s2)])])
              (.jobj [])
              [(k1, .wUnsupported k1 (.jobj kvs) (expectedDefs (.jobj kvs) (some (.jobj [])))),
               (k2, w2)]) := by
  have ha : ∀ pd2, create_widget (f + 2) n (.jobj kvs) ctx pd2
      = some (.wUnsupported n (.jobj kvs) (expectedDefs (.jobj kvs) pd2)) := fun pd2 =>
    create_unsupported_total f n kvs ctx pd2
      (construct_array_missing_items f n kvs ctx pd2 hid href henum htype hitems)
  refine ⟨ha pd, ?_⟩
  intro no k1 k2 s2 w2 hw2
  have ha1 : create_widget (f + 2) k1 (.jobj kvs) ctx (some (.jobj []))
      = some (.wUnsupported k1 (.jobj kvs) (expectedDefs (.jobj kvs) (some (.jobj [])))) :=
    create_unsupported_total f k1 kvs ctx (some (.jobj []))
      (construct_array_missing_items f k1 kvs ctx (some (.jobj [])) hid href henum htype hitems)
  have hb1 : buildProps (f + 3) [(k1, .jobj kvs), (k2, s2)] ctx (.jobj [])
      = some [(k1, .wUnsupported k1 (.jobj kvs) (expectedDefs (.jobj kvs) (some (.jobj [])))),
              (k2, w2)] := by
    simp only [buildProps, ha1, hw2]
  have hcw := construct_object_some (f + 3) no
    [("type", .jstr "object"), ("properties", .jobj [(k1, .jobj kvs), (k2, s2)])] ctx none
    [(k1, .jobj kvs), (k2, s2)] _ rfl rfl rfl rfl rfl hb1
  simp only [create_widget, hcw, Widget.schemaOf, jsonLookup]
  rfl

theorem C9_witness :
    create_widget 2 "bad" (.jobj [("type", .jstr "array")]) ctx0 none
      = some (.wUnsupported "bad" (.jobj [("type", .jstr "array")])
          (expectedDefs (.jobj [("type", .jstr "array")]) none))
    ∧ create_widget 6 "o"
        (.jobj [("type", .jstr "object"),
          ("properties", .jobj [("bad", .jobj [("type", .jstr "array")]),
            ("good", .jobj [("type", .jstr "boolean")])])]) ctx0 none
      = some (.wObject "o"
          (.jobj [("type", .jstr "object"),
            ("properties", .jobj [("bad", .jobj [("type", .jstr "array")]),
              ("good", .jobj [("type", .jstr "boolean")])])])
          (.jobj [])
          [("bad", .wUnsupported "bad" (.jobj [("type", .jstr "array")])
              (expectedDefs (.jobj [("type", .jstr "array")]) (some (.jobj [])))),
           ("good", (create_widget 2 "good" (.jobj [("type", .jstr "boolean")]) ctx0
              (some (.jobj []))).getD default)]) := by
  have h := C9_missing_items_degrades_to_unsupported 1 "bad" [("type", .jstr "array")]
    ctx0 none rfl rfl rfl rfl rfl
  exact ⟨h.1, h.2 "o" "bad" "good" (.jobj [("type", .jstr "boolean")])
    ((create_widget 2 "good" (.jobj [("type", .jstr "boolean")]) ctx0
      (some (.jobj []))).getD default) rfl⟩

theorem C5_witness :
    ∃ out, JSON.jobj [("a", .jbool false), ("b", .jint 0)] = .jobj out
      ∧ out.map Prod.fst = c5props.map Prod.fst :=
  C5_object_dump_covers_all_properties 10 "o"
    [("type", .jstr "object"), ("properties", .jobj c5props)] c5props ctx0 none
    ((create_widget 10 "o" c5schema ctx0 none).getD default)
    (.jobj [("a", .jbool false), ("b", .jint 0)])
    rfl rfl rfl rfl rfl (by rfl) (by rfl)

/-- Construction of an Integer node under its selection hypotheses. -/
theorem construct_integer_some (f : Nat) (n : String) (kvs : List (String × JSON))
    (ctx : Ctx) (pd : Option JSON) (b : SpinBox)
    (hid : jlookup kvs "id" = none) (href : jlookup kvs "$ref" = none)
    (henum : jlookup kvs "enum" = none)
    (htype : jlookup kvs "type" = some (.jstr "integer"))
    (hb : set_limits_int kvs SpinBox.init = some b) :
    construct_widget (f + 1) n (.jobj kvs) ctx pd
      = some (.wInt n (.jobj kvs) (expectedDefs (.jobj kvs) pd) b) := by
  have hsel : widget_class_selection kvs = some WKind.integer :=
    (widget_class_selection_typed kvs "integer" henum htype).trans
      (by rw [show typeKind "integer" = WKind.integer from rfl])
  simp only [construct_widget, jsonLookup, hid, derefChain, href, hsel, hb]

/-- Construction of a Number node under its selection hypotheses. -/
theorem construct_number_some (f : Nat) (n : String) (kvs : List (String × JSON))
    (ctx : Ctx) (pd : Option JSON) (b : DSpinBox)
    (hid : jlookup kvs "id" = none) (href : jlookup kvs "$ref" = none)
    (henum : jlookup kvs "enum" = none)
    (htype : jlookup kvs "type" = some (.jstr "number"))
    (hb : set_limits_num kvs DSpinBox.init = some b) :
    construct_widget (f + 1) n (.jobj kvs) ctx pd
      = some (.wNum n (.jobj kvs) (expectedDefs (.jobj kvs) pd) b) := by
  have hsel : widget_class_selection kvs = some WKind.number :=
    (widget_class_selection_typed kvs "number" henum htype).trans
      (by rw [show typeKind "number" = WKind.number from rfl])
  simp only [construct_widget, jsonLookup, hid, derefChain, href, hsel, hb]

/-- Loading never changes an Integer node's bounds (`setValue` only clamps
the value). -/
theorem load_int_bounds (f : Nat) (n : String) (s d : JSON) (b : SpinBox) (v : JSON)
    (w : Widget) (h : load_json_object f (.wInt n s d b) v = some w) :
    w.intBounds = some (b.lo, b.hi) := by
  cases f with
  | zero => exact absurd h (by simp [load_json_object])
  | succ f =>
    simp only [load_json_object, Option.map_eq_some'] at h
    obtain ⟨m, _, rfl⟩ := h
    rfl

/-- Loading never changes a Number node's bounds. -/
theorem load_num_bounds (f : Nat) (n : String) (s d : JSON) (b : DSpinBox) (v : JSON)
    (w : Widget) (h : load_json_object f (.wNum n s d b) v = some w) :
    w.numBounds = some (b.lo, b.hi) := by
  cases f with
  | zero => exact absurd h (by simp [load_json_object])
  | succ f =>
    simp only [load_json_object, Option.map_eq_some'] at h
    obtain ⟨q, _, rfl⟩ := h
    rfl

/-- The bounds of an Integer node, whatever its `default`, are those computed
by `_set_limits`. -/
theorem create_int_bounds (g : Nat) (n : String) (kvs : List (String × JSON))
    (ctx : Ctx) (pd : Option JSON) (b : SpinBox) (w : Widget)
    (hid : jlookup kvs "id" = none) (href : jlookup kvs "$ref" = none)
    (henum : jlookup kvs "enum" = none)
    (htype : jlookup kvs "type" = some (.jstr "integer"))
    (hb : set_limits_int kvs SpinBox.init = some b)
    (hw : create_widget (g + 2) n (.jobj kvs) ctx pd = some w) :
    w.intBounds = some (b.lo, b.hi) := by
  have hcw := construct_integer_some g n kvs ctx pd b hid href henum htype hb
  simp only [create_widget, hcw, Widget.schemaOf, jsonLookup] at hw
  cases hdef : jlookup kvs "default" with
  | none =>
    rw [hdef] at hw
    simp only [Option.some.injEq] at hw
    rw [← hw]
    rfl
  | some dd =>
    rw [hdef] at hw
    exact load_int_bounds (g + 1) n (.jobj kvs) (expectedDefs (.jobj kvs) pd) b dd w hw

/-- The bounds of a Number node, whatever its `default`, are those computed
by `_set_limits`. -/
theorem create_num_bounds (g : Nat) (n : String) (kvs : List (String × JSON))
    (ctx : Ctx) (pd : Option JSON) (b : DSpinBox) (w : Widget)
    (hid : jlookup kvs "id" = none) (href : jlookup kvs "$ref" = none)
    (henum : jlookup kvs "enum" = none)
    (htype : jlookup kvs "type" = some (.jstr "number"))
    (hb : set_limits_num kvs DSpinBox.init = some b)
    (hw : create_widget (g + 2) n (.jobj kvs) ctx pd = some w) :
    w.numBounds = some (b.lo, b.hi) := by
  have hcw := construct_number_some g n kvs ctx pd b hid href henum htype hb
  simp only [create_widget, hcw, Widget.schemaOf, jsonLookup] at hw
  cases hdef : jlookup kvs "default" with
  | none =>
    rw [hdef] at hw
    simp only [Option.some.injEq] at hw
    rw [← hw]
    rfl
  | some dd =>
    rw [hdef] at hw
    exact load_num_bounds (g + 1) n (.jobj kvs) (expectedDefs (.jobj kvs) pd) b dd w hw

theorem set_limits_int_both (kvs : List (String × JSON)) (m M : Int) (e1 e2 : Bool)
    (hmin : jlookup kvs "minimum" = some (.jint m))
    (hmax : jlookup kvs "maximum" = some (.jint M))
    (he1 : pyTruthy ((jlookup kvs "exclusiveMinimum").getD (.jbool false)) = e1)
    (he2 : pyTruthy ((jlookup kvs "exclusiveMaximum").getD (.jbool false)) = e2) :
    set_limits_int kvs SpinBox.init
      = some ((SpinBox.init.setMinimum (if e1 then m + 1 else m)).setMaximum
          (if e2 then M - 1 else M)) := by
  simp only [set_limits_int, hmin, hmax, he1, he2, asInt, Option.map_some', Option.some_bind]

theorem set_limits_int_min_only (kvs : List (String × JSON)) (m : Int) (e1 : Bool)
    (hmin : jlookup kvs "minimum" = some (.jint m))
    (hmax : jlookup kvs "maximum" = none)
    (he1 : pyTruthy ((jlookup kvs "exclusiveMinimum").getD (.jbool false)) = e1) :
    set_limits_int kvs SpinBox.init
      = some (SpinBox.init.setMinimum (if e1 then m + 1 else m)) := by
  simp only [set_limits_int, hmin, hmax, he1, asInt, Option.map_some', Option.some_bind]

theorem set_limits_int_max_only (kvs : List (String × JSON)) (M : Int) (e2 : Bool)
    (hmin : jlookup kvs "minimum" = none)
    (hmax : jlookup kvs "maximum" = some (.jint M))
    (he2 : pyTruthy ((jlookup kvs "exclusiveMaximum").getD (.jbool false)) = e2) :
    set_limits_int kvs SpinBox.init
      = some (SpinBox.init.setMaximum (if e2 then M - 1 else M)) := by
  simp only [set_limits_int, hmin, hmax, he2, asInt, Option.map_some', Option.some_bind]

theorem set_limits_num_both (kvs : List (String × JSON)) (vm vM : JSON) (m M : Rat)
    (e1 e2 : Bool)
    (hvm : jlookup kvs "minimum" = some vm) (hm : asRat vm = some m)
    (hvM : jlookup kvs "maximum" = some vM) (hM : asRat vM = some M)
    (he1 : pyTruthy ((jlookup kvs "exclusiveMinimum").getD (.jbool false)) = e1)
    (he2 : pyTruthy ((jlookup kvs "exclusiveMaximum").getD (.jbool false)) = e2) :
    set_limits_num kvs DSpinBox.init
      = some ((DSpinBox.init.setMinimum (if e1 then m + 1 / 100 else m)).setMaximum
          (if e2 then M - 1 / 100 else M)) := by
  simp only [set_limits_num, hvm, hm, hvM, hM, he1, he2, Option.map_some', Option.some_bind]

theorem set_limits_num_min_only (kvs : List (String × JSON)) (vm : JSON) (m : Rat) (e1 : Bool)
    (hvm : jlookup kvs "minimum" = some vm) (hm : asRat vm = some m)
    (hvM : jlookup kvs "maximum" = none)
    (he1 : pyTruthy ((jlookup kvs "exclusiveMinimum").getD (.jbool false)) = e1) :
    set_limits_num kvs DSpinBox.init
      = some (DSpinBox.init.setMinimum (if e1 then m + 1 / 100 else m)) := by
  simp only [set_limits_num, hvm, hm, hvM, he1, Option.map_some', Option.some_bind]

theorem set_limits_num_max_only (kvs : List (String × JSON)) (vM : JSON) (M : Rat) (e2 : Bool)
    (hvm : jlookup kvs "minimum" = none)
    (hvM : jlookup kvs "maximum" = some vM) (hM : asRat vM = some M)
    (he2 : pyTruthy ((jlookup kvs "exclusiveMaximum").getD (.jbool false)) = e2) :
    set_limits_num kvs DSpinBox.init
      = some (DSpinBox.init.setMaximum (if e2 then M - 1 / 100 else M)) := by
  simp only [set_limits_num, hvm, hvM, hM, he2, Option.map_some', Option.some_bind]

/-- C7 (corrected): for Integer and Number nodes, a present `minimum` yields
the effective lower input bound `minimum` plus one step when
`exclusiveMinimum` is truthy (and `minimum` itself otherwise), and a present
`maximum` yields the effective upper bound `maximum` minus one step when
`exclusiveMaximum` is truthy, with step 1 for Integer and the fixed epsilon
0.01 for Number — provided that, when both bounds are present, the effective
minimum does not exceed the effective maximum (otherwise the later
`setMaximum` call drags the lower bound down, see the counterexample).  With
only one bound present the other side keeps the control's default, repaired
into a valid range. -/
theorem C7_amended_effective_bounds :
    (∀ (f : Nat) (n : String) (kvs : List (String × JSON)) (ctx : Ctx) (pd : Option JSON)
      (w : Widget) (m M : Int) (e1 e2 : Bool),
      jlookup kvs "id" = none → jlookup kvs "$ref" = none → jlookup kvs "enum" = none →
      jlookup kvs "type" = some (.jstr "integer") →
      jlookup kvs "minimum" = some (.jint m) →
      jlookup kvs "maximum" = some (.jint M) →
      pyTruthy ((jlookup kvs "exclusiveMinimum").getD (.jbool false)) = e1 →
      pyTruthy ((jlookup kvs "exclusiveMaximum").getD (.jbool false)) = e2 →
      (if e1 then m + 1 else m) ≤ (if e2 then M - 1 else M) →
      create_widget f n (.jobj kvs) ctx pd = some w →
      w.intBounds = some (if e1 then m + 1 else m, if e2 then M - 1 else M))
    ∧ (∀ (f : Nat) (n : String) (kvs : List (String × JSON)) (ctx : Ctx) (pd : Option JSON)
      (w : Widget) (m : Int) (e1 : Bool),
      jlookup kvs "id" = none → jlookup kvs "$ref" = none → jlookup kvs "enum" = none →
      jlookup kvs "type" = some (.jstr "integer") →
      jlookup kvs "minimum" = some (.jint m) →
      jlookup kvs "maximum" = none →
      pyTruthy ((jlookup kvs "exclusiveMinimum").getD (.jbool false)) = e1 →
      create_widget f n (.jobj kvs) ctx pd = some w →
      w.intBounds = some (if e1 then m + 1 else m, max 99 (if e1 then m + 1 else m)))
    ∧ (∀ (f : Nat) (n : String) (kvs : List (String × JSON)) (ctx : Ctx) (pd : Option JSON)
      (w : Widget) (M : Int) (e2 : Bool),
      jlookup kvs "id" = none → jlookup kvs "$ref" = none → jlookup kvs "enum" = none →
      jlookup kvs "type" = some (.jstr "integer") →
      jlookup kvs "minimum" = none →
      jlookup kvs "maximum" = some (.jint M) →
      pyTruthy ((jlookup kvs "exclusiveMaximum").getD (.jbool false)) = e2 →
      create_widget f n (.jobj kvs) ctx pd = some w →
      w.intBounds = some (min 0 (if e2 then M - 1 else M), if e2 then M - 1 else M))
    ∧ (∀ (f : Nat) (n : String) (kvs : List (String × JSON)) (ctx : Ctx) (pd : Option JSON)
      (w : Widget) (vm vM : JSON) (m M : Rat) (e1 e2 : Bool),
      jlookup kvs "id" = none → jlookup kvs "$ref" = none → jlookup kvs "enum" = none →
      jlookup kvs "type" = some (.jstr "number") →
      jlookup kvs "minimum" = some vm → asRat vm = some m →
      jlookup kvs "maximum" = some vM → asRat vM = some M →
      pyTruthy ((jlookup kvs "exclusiveMinimum").getD (.jbool false)) = e1 →
      pyTruthy ((jlookup kvs "exclusiveMaximum").getD (.jbool false)) = e2 →
      (if e1 then m + 1 / 100 else m) ≤ (if e2 then M - 1 / 100 else M) →
      create_widget f n (.jobj kvs) ctx pd = some w →
      w.numBounds = some (if e1 then m + 1 / 100 else m, if e2 then M - 1 / 100 else M))
    ∧ (∀ (f : Nat) (n : String) (kvs : List (String × JSON)) (ctx : Ctx) (pd : Option JSON)
      (w : Widget) (vm : JSON) (m : Rat) (e1 : Bool),
      jlookup kvs "id" = none → jlookup kvs "$ref" = none → jlookup kvs "enum" = none →
      jlookup kvs "type" = some (.jstr "number") →
      jlookup kvs "minimum" = some vm → asRat vm = some m →
      jlookup kvs "maximum" = none →
      pyTruthy ((jlookup kvs "exclusiveMinimum").getD (.jbool false)) = e1 →
      create_widget f n (.jobj kvs) ctx pd = some w →
      w.numBounds = some (if e1 then m + 1 / 100 else m,
        max (9999 / 100) (if e1 then m + 1 / 100 else m)))
    ∧ (∀ (f : Nat) (n : String) (kvs : List (String × JSON)) (ctx : Ctx) (pd : Option JSON)
      (w : Widget) (vM : JSON) (M : Rat) (e2 : Bool),
      jlookup kvs "id" = none → jlookup kvs "$ref" = none → jlookup kvs "enum" = none →
      jlookup kvs "type" = some (.jstr "number") →
      jlookup kvs "minimum" = none →
      jlookup kvs "maximum" = some vM → asRat vM = some M →
      pyTruthy ((jlookup kvs "exclusiveMaximum").getD (.jbool false)) = e2 →
      create_widget f n (.jobj kvs) ctx pd = some w →
      w.numBounds = some (min 0 (if e2 then M - 1 / 100 else M), if e2 then M - 1 / 100 else M)) := by
  refine ⟨?_, ?_, ?_, ?_, ?_, ?_⟩
  · intro f n kvs ctx pd w m M e1 e2 hid href henum htype hmin hmax he1 he2 hle hw
    match f with
    | 0 => exact absurd hw (by simp [create_widget])
    | 1 => exact absurd hw (by simp [create_widget, construct_widget])
    | g + 2 =>
      have hb := set_limits_int_both kvs m M e1 e2 hmin hmax he1 he2
      have h := create_int_bounds g n kvs ctx pd _ w hid href henum htype hb hw
      rw [h]
      simp only [SpinBox.setMinimum, SpinBox.setMaximum, SpinBox.init]
      rw [min_eq_left hle]
  · intro f n kvs ctx pd w m e1 hid href henum htype hmin hmax he1 hw
    match f with
    | 0 => exact absurd hw (by simp [create_widget])
    | 1 => exact absurd hw (by simp [create_widget, construct_widget])
    | g + 2 =>
      have hb := set_limits_int_min_only kvs m e1 hmin hmax he1
      have h := create_int_bounds g n kvs ctx pd _ w hid href henum htype hb hw
      rw [h]
      simp only [SpinBox.setMinimum, SpinBox.init]
  · intro f n kvs ctx pd w M e2 hid href henum htype hmin hmax he2 hw
    match f with
    | 0 => exact absurd hw (by simp [create_widget])
    | 1 => exact absurd hw (by simp [create_widget, construct_widget])
    | g + 2 =>
      have hb := set_limits_int_max_only kvs M e2 hmin hmax he2
      have h := create_int_bounds g n kvs ctx pd _ w hid href henum htype hb hw
      rw [h]
      simp only [SpinBox.setMaximum, SpinBox.init]
  · intro f n kvs ctx pd w vm vM m M e1 e2 hid href henum htype hvm hm hvM hM he1 he2 hle hw
    match f with
    | 0 => exact absurd hw (by simp [create_widget])
    | 1 => exact absurd hw (by simp [create_widget, construct_widget])
    | g + 2 =>
      have hb := set_limits_num_both kvs vm vM m M e1 e2 hvm hm hvM hM he1 he2
      have h := create_num_bounds g n kvs ctx pd _ w hid href henum htype hb hw
      rw [h]
      simp only [DSpinBox.setMinimum, DSpinBox.setMaximum, DSpinBox.init]
      rw [min_eq_left hle]
  · intro f n kvs ctx pd w vm m e1 hid href henum htype hvm hm hvM he1 hw
    match f with
    | 0 => exact absurd hw (by simp [create_widget])
    | 1 => exact absurd hw (by simp [create_widget, construct_widget])
    | g + 2 =>
      have hb := set_limits_num_min_only kvs vm m e1 hvm hm hvM he1
      have h := create_num_bounds g n kvs ctx pd _ w hid href henum htype hb hw
      rw [h]
      simp only [DSpinBox.setMinimum, DSpinBox.init]
  · intro f n kvs ctx pd w vM M e2 hid href henum htype hvm hvM hM he2 hw
    match f with
    | 0 => exact absurd hw (by simp [create_widget])
    | 1 => exact absurd hw (by simp [create_widget, construct_widget])
    | g + 2 =>
      have hb := set_limits_num_max_only kvs vM M e2 hvm hvM hM he2
      have h := create_num_bounds g n kvs ctx pd _ w hid href henum htype hb hw
      rw [h]
      simp only [DSpinBox.setMaximum, DSpinBox.init]

theorem C7_witness :
    ((create_widget 3 "n" (.jobj c7wkvs) ctx0 none).getD default).intBounds = some (4, 6)
    ∧ ((create_widget 3 "n" (.jobj c7nkvs) ctx0 none).getD default).numBounds
      = some (1 + 1 / 100, max (9999 / 100) (1 + 1 / 100)) := by
  constructor
  · have h := C7_amended_effective_bounds.1 3 "n" c7wkvs ctx0 none
      ((create_widget 3 "n" (.jobj c7wkvs) ctx0 none).getD default) 3 7 true true
      rfl rfl rfl rfl rfl rfl rfl rfl (by decide) (by rfl)
    simpa using h
  · exact C7_amended_effective_bounds.2.2.2.2.1 3 "n" c7nkvs ctx0 none
      ((create_widget 3 "n" (.jobj c7nkvs) ctx0 none).getD default) (.jint 1) 1 true
      rfl rfl rfl rfl rfl rfl rfl rfl (by rfl)

theorem defsOkProps_lookup (pd : Option JSON) (props : List (String × Widget)) (k : String)
    (c : Widget) (hp : defsOkProps pd props = true) (h : propLookup props k = some c) :
    defsOk pd c = true := by
  induction props with
  | nil => simp [propLookup] at h
  | cons p rest ih =>
    obtain ⟨k0, w0⟩ := p
    simp only [defsOkProps, Bool.and_eq_true] at hp
    by_cases hk : k0 = k
    · simp only [propLookup, if_pos hk, Option.some.injEq] at h
      rw [← h]
      exact hp.1
    · simp only [propLookup, if_neg hk] at h
      exact ih hp.2 h

theorem defsOkProps_replace (pd : Option JSON) (props : List (String × Widget)) (k : String)
    (c2 : Widget) (hp : defsOkProps pd props = true) (hc : defsOk pd c2 = true) :
    defsOkProps pd (propReplace props k c2) = true := by
  induction props with
  | nil => simp [propReplace, defsOkProps]
  | cons p rest ih =>
    obtain ⟨k0, w0⟩ := p
    simp only [defsOkProps, Bool.and_eq_true] at hp
    by_cases hk : k0 = k
    · simp [propReplace, hk, defsOkProps, hc, hp.2]
    · simp [propReplace, hk, defsOkProps, hp.1, ih hp.2]

theorem defsOkChildren_get (pd : Option JSON) (cs : List Widget) (i : Nat) (hi : i < cs.length)
    (hp : defsOkChildren pd cs = true) : defsOk pd cs[i] = true := by
  induction cs generalizing i with
  | nil => simp at hi
  | cons c rest ih =>
    simp only [defsOkChildren, Bool.and_eq_true] at hp
    cases i with
    | zero => exact hp.1
    | succ i => exact ih i (by simpa using hi) hp.2

theorem defsOkChildren_set (pd : Option JSON) (cs : List Widget) (i : Nat) (c2 : Widget)
    (hp : defsOkChildren pd cs = true) (hc : defsOk pd c2 = true) :
    defsOkChildren pd (cs.set i c2) = true := by
  induction cs generalizing i with
  | nil => simpa using hp
  | cons c rest ih =>
    simp only [defsOkChildren, Bool.and_eq_true] at hp
    cases i with
    | zero => simp [defsOkChildren, hc, hp.2]
    | succ i => simp [defsOkChildren, hp.1, ih i hp.2]

theorem defsOkChildren_append (pd : Option JSON) (cs : List Widget) (c : Widget)
    (hp : defsOkChildren pd cs = true) (hc : defsOk pd c = true) :
    defsOkChildren pd (cs ++ [c]) = true := by
  induction cs with
  | nil => simp [defsOkChildren, hc]
  | cons c0 rest ih =>
    simp only [defsOkChildren, Bool.and_eq_true] at hp
    simp only [List.cons_append, defsOkChildren, Bool.and_eq_true]
    exact ⟨hp.1, ih hp.2⟩

/-- The `definitions` invariant holds for every tree the factory constructs
and is preserved by every load, at every fuel. -/
theorem defs_invariant_all : ∀ f : Nat,
    (∀ (n : String) (s : JSON) (ctx : Ctx) (pd : Option JSON) (w : Widget),
      construct_widget f n s ctx pd = some w → defsOk pd w = true)
    ∧ (∀ (n : String) (s : JSON) (ctx : Ctx) (pd : Option JSON) (w : Widget),
      create_widget f n s ctx pd = some w → defsOk pd w = true)
    ∧ (∀ (ps : List (String × JSON)) (ctx : Ctx) (defs : JSON) (props : List (String × Widget)),
      buildProps f ps ctx defs = some props → defsOkProps (some defs) props = true)
    ∧ (∀ (w : Widget) (v : JSON) (w2 : Widget) (pd : Option JSON),
      defsOk pd w = true → load_json_object f w v = some w2 → defsOk pd w2 = true)
    ∧ (∀ (props : List (String × Widget)) (kvs : List (String × JSON))
        (props2 : List (String × Widget)) (pd : Option JSON),
      defsOkProps pd props = true → loadProps f props kvs = some props2 →
      defsOkProps pd props2 = true)
    ∧ (∀ (ctx : Ctx) (its : JSON) (addl : Option JSON) (d : JSON) (cs : List Widget)
        (i : Nat) (xs : List JSON) (cs2 : List Widget),
      defsOkChildren (some d) cs = true → loadArr f ctx its addl d cs i xs = some cs2 →
      defsOkChildren (some d) cs2 = true)
    ∧ (∀ (ctx : Ctx) (its : JSON) (addl : Option JSON) (d : JSON) (cs : List Widget)
        (x : JSON) (cs2 : List Widget),
      defsOkChildren (some d) cs = true → add_item f ctx its addl d cs x = some cs2 →
      defsOkChildren (some d) cs2 = true) := by
  intro f
  induction f with
  | zero =>
    refine ⟨?_, ?_, ?_, ?_, ?_, ?_, ?_⟩
    · intro n s ctx pd w h
      exact absurd h (by simp [construct_widget])
    · intro n s ctx pd w h
      exact absurd h (by simp [create_widget])
    · intro ps ctx defs props h
      exact absurd h (by simp [buildProps])
    · intro w v w2 pd hp h
      exact absurd h (by simp [load_json_object])
    · intro props kvs props2 pd hp h
      exact absurd h (by simp [loadProps])
    · intro ctx its addl d cs i xs cs2 hp h
      exact absurd h (by simp [loadArr])
    · intro ctx its addl d cs x cs2 hp h
      exact absurd h (by simp [add_item])
  | succ f ih =>
    obtain ⟨ihDc, ihD, ihDb, ihDl, ihDlP, ihDlA, ihDaI⟩ := ih
    have hDc : ∀ (n : String) (s : JSON) (ctx : Ctx) (pd : Option JSON) (w : Widget),
        construct_widget (f + 1) n s ctx pd = some w → defsOk pd w = true := by
      intro n s ctx pd w h
      cases s with
      | jobj kvs0 =>
        simp only [construct_widget] at h
        repeat' split at h
        all_goals try exact Option.noConfusion h
        all_goals obtain rfl := Option.some_injective _ h
        all_goals rename_i heq
        all_goals repeat' split at heq
        all_goals try exact BuildResult.noConfusion heq
        all_goals try (injection heq with heq2)
        all_goals try subst heq2
        all_goals simp_all only [defsOk, defsOkProps, defsOkChildren, Widget.defsOf,
          Widget.schemaOf, Bool.and_eq_true, beq_self_eq_true, and_true, true_and, and_self]
        all_goals exact ihDb _ _ _ _ (by assumption)
      | jnull => exact absurd h (by simp [construct_widget])
      | jbool b => exact absurd h (by simp [construct_widget])
      | jint m => exact absurd h (by simp [construct_widget])
      | jnum q => exact absurd h (by simp [construct_widget])
      | jstr t => exact absurd h (by simp [construct_widget])
      | jarr xs => exact absurd h (by simp [construct_widget])
    refine ⟨hDc, ?_, ?_, ?_, ?_, ?_, ?_⟩
    · -- create_widget
      intro n s ctx pd w h
      cases hc : construct_widget f n s ctx pd with
      | none => simp only [create_widget, hc] at h; exact Option.noConfusion h
      | some w0 =>
        simp only [create_widget, hc] at h
        cases hdef : jsonLookup w0.schemaOf "default" with
        | none =>
          rw [hdef] at h
          simp only [Option.some.injEq] at h
          rw [← h]
          exact ihDc n s ctx pd w0 hc
        | some dd =>
          rw [hdef] at h
          exact ihDl w0 dd w pd (ihDc n s ctx pd w0 hc) h
    · -- buildProps
      intro ps ctx defs props h
      cases ps with
      | nil =>
        simp only [buildProps, Option.some.injEq] at h
        rw [← h]
        rfl
      | cons p rest =>
        obtain ⟨k, v⟩ := p
        cases hc : create_widget f k v ctx (some defs) with
        | none => simp only [buildProps, hc] at h; exact Option.noConfusion h
        | some w0 =>
          cases hb : buildProps f rest ctx defs with
          | none => simp only [buildProps, hc, hb] at h; exact Option.noConfusion h
          | some ps2 =>
            simp only [buildProps, hc, hb, Option.some.injEq] at h
            rw [← h]
            simp only [defsOkProps, Bool.and_eq_true]
            exact ⟨ihD k v ctx (some defs) w0 hc, ihDb rest ctx defs ps2 hb⟩
    · -- load_json_object
      intro w v w2 pd hp h
      cases w with
      | wUnsupported n s d =>
        simp only [load_json_object, Option.some.injEq] at h
        rw [← h]
        exact hp
      | wObject n s d props =>
        cases v with
        | jobj kvs =>
          simp only [load_json_object, Option.map_eq_some'] at h
          obtain ⟨props2, hlp, rfl⟩ := h
          simp only [defsOk, Bool.and_eq_true] at hp ⊢
          exact ⟨hp.1, ihDlP props kvs props2 (some d) hp.2 hlp⟩
        | jnull => exact absurd h (by simp [load_json_object])
        | jbool b => exact absurd h (by simp [load_json_object])
        | jint m => exact absurd h (by simp [load_json_object])
        | jnum q => exact absurd h (by simp [load_json_object])
        | jstr t => exact absurd h (by simp [load_json_object])
        | jarr xs => exact absurd h (by simp [load_json_object])
      | wString n s d e =>
        cases v with
        | jstr t =>
          simp only [load_json_object, Option.some.injEq] at h
          rw [← h]
          exact hp
        | jnull => exact absurd h (by simp [load_json_object])
        | jbool b => exact absurd h (by simp [load_json_object])
        | jint m => exact absurd h (by simp [load_json_object])
        | jnum q => exact absurd h (by simp [load_json_object])
        | jarr xs => exact absurd h (by simp [load_json_object])
        | jobj kvs => exact absurd h (by simp [load_json_object])
      | wInt n s d b =>
        simp only [load_json_object, Option.map_eq_some'] at h
        obtain ⟨m, _, rfl⟩ := h
        exact hp
      | wNum n s d b =>
        simp only [load_json_object, Option.map_eq_some'] at h
        obtain ⟨q, _, rfl⟩ := h
        exact hp
      | wBool n s d c0 =>
        cases v with
        | jbool b =>
          simp only [load_json_object, Option.some.injEq] at h
          rw [← h]
          exact hp
        | jnull => exact absurd h (by simp [load_json_object])
        | jstr t => exact absurd h (by simp [load_json_object])
        | jint m => exact absurd h (by simp [load_json_object])
        | jnum q => exact absurd h (by simp [load_json_object])
        | jarr xs => exact absurd h (by simp [load_json_object])
        | jobj kvs => exact absurd h (by simp [load_json_object])
      | wEnum n s d vals c =>
        have hl : load_json_object (f + 1) (.wEnum n s d vals c) v
            = (listIndex vals v).map fun i => .wEnum n s d vals (c.setCurrentIndex (i : Int)) := by
          simp only [load_json_object]
          cases listIndex vals v <;> rfl
        rw [hl, Option.map_eq_some'] at h
        obtain ⟨i, _, rfl⟩ := h
        exact hp
      | wArray n s d ctx its addl cs =>
        cases v with
        | jarr xs =>
          simp only [load_json_object, Option.map_eq_some'] at h
          obtain ⟨cs2, hla, rfl⟩ := h
          simp only [defsOk, Bool.and_eq_true] at hp ⊢
          exact ⟨hp.1, ihDlA ctx its addl d cs 0 xs cs2 hp.2 hla⟩
        | jnull => exact absurd h (by simp [load_json_object])
        | jbool b => exact absurd h (by simp [load_json_object])
        | jint m => exact absurd h (by simp [load_json_object])
        | jnum q => exact absurd h (by simp [load_json_object])
        | jstr t => exact absurd h (by simp [load_json_object])
        | jobj kvs => exact absurd h (by simp [load_json_object])
    · -- loadProps
      intro props kvs props2 pd hp h
      cases kvs with
      | nil =>
        simp only [loadProps, Option.some.injEq] at h
        rw [← h]
        exact hp
      | cons p rest =>
        obtain ⟨k, v⟩ := p
        cases hlk : propLookup props k with
        | none => simp only [loadProps, hlk] at h; exact Option.noConfusion h
        | some child =>
          cases hld : load_json_object f child v with
          | none => simp only [loadProps, hlk, hld] at h; exact Option.noConfusion h
          | some c2 =>
            simp only [loadProps, hlk, hld] at h
            have hc2 := ihDl child v c2 pd (defsOkProps_lookup pd props k child hp hlk) hld
            exact ihDlP _ rest props2 pd (defsOkProps_replace pd props k c2 hp hc2) h
    · -- loadArr
      intro ctx its addl d cs i xs cs2 hp h
      cases xs with
      | nil =>
        simp only [loadArr, Option.some.injEq] at h
        rw [← h]
        exact hp
      | cons x rest =>
        simp only [loadArr] at h
        split at h
        · rename_i hi
          cases hld : load_json_object f cs[i] x with
          | none => rw [hld] at h; exact Option.noConfusion h
          | some c2 =>
            rw [hld] at h
            have hc2 := ihDl cs[i] x c2 (some d) (defsOkChildren_get (some d) cs i hi hp) hld
            exact ihDlA ctx its addl d _ (i + 1) rest cs2
              (defsOkChildren_set (some d) cs i c2 hp hc2) h
        · cases hai : add_item f ctx its addl d cs x with
          | none => rw [hai] at h; exact Option.noConfusion h
          | some csx =>
            rw [hai] at h
            exact ihDlA ctx its addl d csx (i + 1) rest cs2
              (ihDaI ctx its addl d cs x csx hp hai) h
    · -- add_item
      intro ctx its addl d cs x cs2 hp h
      cases hs : get_item_schema its addl cs.length with
      | none => simp only [add_item, hs] at h; exact Option.noConfusion h
      | some s0 =>
        cases hc : create_widget f ("Item #" ++ toString cs.length) s0 ctx (some d) with
        | none => simp only [add_item, hs, hc] at h; exact Option.noConfusion h
        | some obj =>
          have hobj := ihD _ s0 ctx (some d) obj hc
          cases x with
          | jnull =>
            simp only [add_item, hs, hc, Option.some.injEq] at h
            rw [← h]
            exact defsOkChildren_append (some d) cs obj hp hobj
          | jbool b =>
            simp only [add_item, hs, hc] at h
            cases hld : load_json_object f obj (.jbool b) with
            | none => rw [hld] at h; exact Option.noConfusion h
            | some obj2 =>
              rw [hld] at h
              simp only [Option.some.injEq] at h
              rw [← h]
              exact defsOkChildren_append (some d) cs obj2 hp
                (ihDl obj (.jbool b) obj2 (some d) hobj hld)
          | jint m =>
            simp only [add_item, hs, hc] at h
            cases hld : load_json_object f obj (.jint m) with
            | none => rw [hld] at h; exact Option.noConfusion h
            | some obj2 =>
              rw [hld] at h
              simp only [Option.some.injEq] at h
              rw [← h]
              exact defsOkChildren_append (some d) cs obj2 hp
                (ihDl obj (.jint m) obj2 (some d) hobj hld)
          | jnum q =>
            simp only [add_item, hs, hc] at h
            cases hld : load_json_object f obj (.jnum q) with
            | none => rw [hld] at h; exact Option.noConfusion h
            | some obj2 =>
              rw [hld] at h
              simp only [Option.some.injEq] at h
              rw [← h]
              exact defsOkChildren_append (some d) cs obj2 hp
                (ihDl obj (.jnum q) obj2 (some d) hobj hld)
          | jstr t =>
            simp only [add_item, hs, hc] at h
            cases hld : load_json_object f obj (.jstr t) with
            | none => rw [hld] at h; exact Option.noConfusion h
            | some obj2 =>
              rw [hld] at h
              simp only [Option.some.injEq] at h
              rw [← h]
              exact defsOkChildren_append (some d) cs obj2 hp
                (ihDl obj (.jstr t) obj2 (some d) hobj hld)
          | jarr ys =>
            simp only [add_item, hs, hc] at h
            cases hld : load_json_object f obj (.jarr ys) with
            | none => rw [hld] at h; exact Option.noConfusion h
            | some obj2 =>
              rw [hld] at h
              simp only [Option.some.injEq] at h
              rw [← h]
              exact defsOkChildren_append (some d) cs obj2 hp
                (ihDl obj (.jarr ys) obj2 (some d) hobj hld)
          | jobj kvs =>
            simp only [add_item, hs, hc] at h
            cases hld : load_json_object f obj (.jobj kvs) with
            | none => rw [hld] at h; exact Option.noConfusion h
            | some obj2 =>
              rw [hld] at h
              simp only [Option.some.injEq] at h
              rw [← h]
              exact defsOkChildren_append (some d) cs obj2 hp
                (ihDl obj (.jobj kvs) obj2 (some d) hobj hld)

/-- C10: every node the factory constructs stores as `definitions` its own
schema's `definitions` entry when that key is present, otherwise its
parent's `definitions` when a parent exists, otherwise the empty mapping —
and hands its own value down to every child, so `definitions` is inherited
unchanged through subtrees whose schemas do not redeclare it. -/
theorem C10_definitions_inheritance (f : Nat) (n : String) (s : JSON) (ctx : Ctx)
    (pd : Option JSON) (w : Widget) (h : create_widget f n s ctx pd = some w) :
    defsOk pd w = true :=
  (defs_invariant_all f).2.1 n s ctx pd w h

theorem C10_witness :
    defsOk none ((create_widget 10 "o" c10schema ctx0 none).getD default) = true :=
  C10_definitions_inheritance 10 "o" c10schema ctx0 none _ (by rfl)

theorem getSet_ne {α : Type} (l : List α) (i j : Nat) (a : α) (h : i ≠ j) :
    (l.set i a)[j]? = l[j]? := by
  induction l generalizing i j with
  | nil => simp
  | cons c rest ih =>
    cases i with
    | zero =>
      cases j with
      | zero => exact absurd rfl h
      | succ j => simp
    | succ i =>
      cases j with
      | zero => simp
      | succ j => simpa using ih i j (fun hh => h (by rw [hh]))

theorem getSet_self {α : Type} (l : List α) (i : Nat) (a : α) (h : i < l.length) :
    (l.set i a)[i]? = some a := by
  induction l generalizing i with
  | nil => simp at h
  | cons c rest ih =>
    cases i with
    | zero => simp
    | succ i => simpa using ih i (by simpa using h)

theorem getAppend_left {α : Type} (l : List α) (a : α) (j : Nat) (h : j < l.length) :
    (l ++ [a])[j]? = l[j]? := by
  induction l generalizing j with
  | nil => simp at h
  | cons c rest ih =>
    cases j with
    | zero => simp
    | succ j => simpa using ih j (by simpa using h)

theorem getAppend_len {α : Type} (l : List α) (a : α) : (l ++ [a])[l.length]? = some a := by
  induction l with
  | nil => simp
  | cons c rest ih => simp [ih]

/-- The frame behaviour of the array loading loop: positions before the
running index and positions at or past the end of the incoming sequence are
untouched, in-range elements are delegated to the existing child, and
elements past the end are appended as freshly built, pre-loaded children. -/
theorem loadArr_frame : ∀ (f : Nat) (ctx : Ctx) (its : JSON) (addl : Option JSON) (d : JSON)
    (cs : List Widget) (i : Nat) (xs : List JSON) (cs2 : List Widget),
    i ≤ cs.length → loadArr f ctx its addl d cs i xs = some cs2 →
    cs2.length = max cs.length (i + xs.length)
    ∧ (∀ j, j < i ∨ (i + xs.length ≤ j ∧ j < cs.length) → cs2[j]? = cs[j]?)
    ∧ (∀ j c x, i ≤ j → cs[j]? = some c → xs[j - i]? = some x →
        ∃ fj c2, load_json_object fj c x = some c2 ∧ cs2[j]? = some c2)
    ∧ (∀ j x, cs.length ≤ j → xs[j - i]? = some x → x ≠ .jnull →
        ∃ fj s0 obj c2, get_item_schema its addl j = some s0
          ∧ create_widget fj ("Item #" ++ toString j) s0 ctx (some d) = some obj
          ∧ load_json_object fj obj x = some c2 ∧ cs2[j]? = some c2) := by
  intro f ctx its addl d cs i xs
  induction xs generalizing f cs i with
  | nil =>
    intro cs2 hi h
    cases f with
    | zero => exact absurd h (by simp [loadArr])
    | succ f =>
      simp only [loadArr, Option.some.injEq] at h
      subst h
      refine ⟨by simp only [List.length_nil, Nat.add_zero]; omega, ?_, ?_, ?_⟩
      · intro j hj
        rfl
      · intro j c x hij hc hx
        simp at hx
      · intro j x hj hx
        simp at hx
  | cons x rest ih =>
    intro cs2 hi h
    cases f with
    | zero => exact absurd h (by simp [loadArr])
    | succ f =>
      simp only [loadArr] at h
      split at h
      · rename_i hilt
        cases hld : load_json_object f cs[i] x with
        | none => rw [hld] at h; exact Option.noConfusion h
        | some c2 =>
          rw [hld] at h
          have hi2 : i + 1 ≤ (cs.set i c2).length := by
            rw [List.length_set]
            omega
          obtain ⟨ih1, ih2, ih3, ih4⟩ := ih f (cs.set i c2) (i + 1) cs2 hi2 h
          rw [List.length_set] at ih1
          have hlcons : (x :: rest).length = rest.length + 1 := rfl
          refine ⟨?_, ?_, ?_, ?_⟩
          · rw [ih1, hlcons]
            omega
          · intro j hj
            rw [hlcons] at hj
            have hj2 : j < i + 1 ∨ (i + 1 + rest.length ≤ j ∧ j < (cs.set i c2).length) := by
              rw [List.length_set]
              omega
            have hji : i ≠ j := by omega
            rw [ih2 j hj2, getSet_ne cs i j c2 hji]
          · intro j c xx hij hc hx
            by_cases hji : j = i
            · subst hji
              simp only [Nat.sub_self] at hx
              have hcx : c = cs[j] := by
                rw [List.getElem?_eq_getElem hilt] at hc
                exact (Option.some_injective _ hc).symm
              subst hcx
              have hxx : x = xx := by simpa using hx
              refine ⟨f, c2, ?_, ?_⟩
              · rw [← hxx]
                exact hld
              · rw [ih2 j (Or.inl (by omega)), getSet_self cs j c2 hilt]
            · have hij2 : i + 1 ≤ j := by omega
              have hc2 : (cs.set i c2)[j]? = some c := by
                rw [getSet_ne cs i j c2 (fun hh => hji hh.symm)]
                exact hc
              have hx2 : rest[j - (i + 1)]? = some xx := by
                have he : j - i = (j - (i + 1)) + 1 := by omega
                rw [he] at hx
                simpa using hx
              exact ih3 j c xx hij2 hc2 hx2
          · intro j xx hj hx hxn
            have hij2 : (cs.set i c2).length ≤ j := by
              rw [List.length_set]
              exact hj
            have hx2 : rest[j - (i + 1)]? = some xx := by
              have hji : i < j := by omega
              have he : j - i = (j - (i + 1)) + 1 := by omega
              rw [he] at hx
              simpa using hx
            exact ih4 j xx hij2 hx2 hxn
      · rename_i hige
        have hieq : i = cs.length := by omega
        cases f with
        | zero => simp [add_item] at h
        | succ f2 =>
          cases hai : add_item (f2 + 1) ctx its addl d cs x with
          | none => rw [hai] at h; exact Option.noConfusion h
          | some csx =>
            rw [hai] at h
            cases hs : get_item_schema its addl cs.length with
            | none => simp only [add_item, hs] at hai; exact Option.noConfusion hai
            | some s0 =>
              cases hc : create_widget f2 ("Item #" ++ toString cs.length) s0 ctx (some d) with
              | none => simp only [add_item, hs, hc] at hai; exact Option.noConfusion hai
              | some obj =>
                have hcsx : ∃ objx, csx = cs ++ [objx]
                    ∧ (x = .jnull ∧ objx = obj
                      ∨ x ≠ .jnull ∧ load_json_object f2 obj x = some objx) := by
                  cases x with
                  | jnull =>
                    simp only [add_item, hs, hc, Option.some.injEq] at hai
                    exact ⟨obj, hai.symm, Or.inl ⟨rfl, rfl⟩⟩
                  | jbool b =>
                    simp only [add_item, hs, hc] at hai
                    cases hld : load_json_object f2 obj (.jbool b) with
                    | none => rw [hld] at hai; exact Option.noConfusion hai
                    | some obj2 =>
                      rw [hld] at hai
                      simp only [Option.some.injEq] at hai
                      exact ⟨obj2, hai.symm, Or.inr ⟨nofun, rfl⟩⟩
                  | jint m =>
                    simp only [add_item, hs, hc] at hai
                    cases hld : load_json_object f2 obj (.jint m) with
                    | none => rw [hld] at hai; exact Option.noConfusion hai
                    | some obj2 =>
                      rw [hld] at hai
                      simp only [Option.some.injEq] at hai
                      exact ⟨obj2, hai.symm, Or.inr ⟨nofun, rfl⟩⟩
                  | jnum q =>
                    simp only [add_item, hs, hc] at hai
                    cases hld : load_json_object f2 obj (.jnum q) with
                    | none => rw [hld] at hai; exact Option.noConfusion hai
                    | some obj2 =>
                      rw [hld] at hai
                      simp only [Option.some.injEq] at hai
                      exact ⟨obj2, hai.symm, Or.inr ⟨nofun, rfl⟩⟩
                  | jstr t =>
                    simp only [add_item, hs, hc] at hai
                    cases hld : load_json_object f2 obj (.jstr t) with
                    | none => rw [hld] at hai; exact Option.noConfusion hai
                    | some obj2 =>
                      rw [hld] at hai
                      simp only [Option.some.injEq] at hai
                      exact ⟨obj2, hai.symm, Or.inr ⟨nofun, rfl⟩⟩
                  | jarr ys =>
                    simp only [add_item, hs, hc] at hai
                    cases hld : load_json_object f2 obj (.jarr ys) with
                    | none => rw [hld] at hai; exact Option.noConfusion hai
                    | some obj2 =>
                      rw [hld] at hai
                      simp only [Option.some.injEq] at hai
                      exact ⟨obj2, hai.symm, Or.inr ⟨nofun, rfl⟩⟩
                  | jobj kvs =>
                    simp only [add_item, hs, hc] at hai
                    cases hld : load_json_object f2 obj (.jobj kvs) with
                    | none => rw [hld] at hai; exact Option.noConfusion hai
                    | some obj2 =>
                      rw [hld] at hai
                      simp only [Option.some.injEq] at hai
                      exact ⟨obj2, hai.symm, Or.inr ⟨nofun, rfl⟩⟩
                obtain ⟨objx, rfl, hcase⟩ := hcsx
                have hlen : (cs ++ [objx]).length = cs.length + 1 := by simp
                have hi2 : i + 1 ≤ (cs ++ [objx]).length := by
                  rw [hlen]
                  omega
                obtain ⟨ih1, ih2, ih3, ih4⟩ := ih (f2 + 1) (cs ++ [objx]) (i + 1) cs2 hi2 h
                rw [hlen] at ih1
                have hlcons : (x :: rest).length = rest.length + 1 := rfl
                refine ⟨?_, ?_, ?_, ?_⟩
                · rw [ih1, hlcons]
                  omega
                · intro j hj
                  rw [hlcons] at hj
                  have hj2 : j < i + 1 ∨ (i + 1 + rest.length ≤ j ∧ j < (cs ++ [objx]).length) := by
                    rw [hlen]
                    omega
                  rw [ih2 j hj2, getAppend_left cs objx j (by omega)]
                · intro j c xx hij hcj hx
                  have hjlt : j < cs.length := (List.getElem?_eq_some.mp hcj).1
                  omega
                · intro j xx hj hx hxn
                  by_cases hji : j = i
                  · have hjlen : j = cs.length := by omega
                    rw [hji, Nat.sub_self] at hx
                    have hxx : x = xx := by simpa using hx
                    subst hxx
                    obtain ⟨hxnull, hobjx⟩ : x ≠ JSON.jnull
                        ∧ load_json_object f2 obj x = some objx := by
                      rcases hcase with ⟨hn, _⟩ | hok
                      · exact absurd hn hxn
                      · exact hok
                    refine ⟨f2, s0, obj, objx, ?_, ?_, hobjx, ?_⟩
                    · rw [hjlen]
                      exact hs
                    · rw [hjlen]
                      exact hc
                    · rw [ih2 j (Or.inl (by omega)), hjlen]
                      exact getAppend_len cs objx
                  · have hij2 : (cs ++ [objx]).length ≤ j := by
                      rw [hlen]
                      omega
                    have hx2 : rest[j - (i + 1)]? = some xx := by
                      have hji2 : i < j := by omega
                      have he : j - i = (j - (i + 1)) + 1 := by omega
                      rw [he] at hx
                      simpa using hx
                    exact ih4 j xx hij2 hx2 hxn

/-- C4: loading a sequence into an Array node never truncates — the child
count becomes the maximum of the old count and the sequence length; trailing
children past the sequence's end are left untouched; each in-range element
is delegated to the existing child at its index; and each element beyond the
old count becomes a freshly built child pre-loaded with that element. -/
theorem C4_array_load_monotonic (f : Nat) (n : String) (s d : JSON) (ctx : Ctx)
    (its : JSON) (addl : Option JSON) (cs : List Widget) (xs : List JSON) (w2 : Widget)
    (h : load_json_object f (.wArray n s d ctx its addl cs) (.jarr xs) = some w2) :
    ∃ cs2, w2 = .wArray n s d ctx its addl cs2
      ∧ cs2.length = max cs.length xs.length
      ∧ (∀ j, xs.length ≤ j → j < cs.length → cs2[j]? = cs[j]?)
      ∧ (∀ (j : Nat) (c : Widget) (x : JSON), cs[j]? = some c → xs[j]? = some x →
          ∃ fj c2, load_json_object fj c x = some c2 ∧ cs2[j]? = some c2)
      ∧ (∀ (j : Nat) (x : JSON), cs.length ≤ j → xs[j]? = some x → x ≠ .jnull →
          ∃ fj s0 obj c2, get_item_schema its addl j = some s0
            ∧ create_widget fj ("Item #" ++ toString j) s0 ctx (some d) = some obj
            ∧ load_json_object fj obj x = some c2 ∧ cs2[j]? = some c2) := by
  cases f with
  | zero => exact absurd h (by simp [load_json_object])
  | succ f =>
    simp only [load_json_object, Option.map_eq_some'] at h
    obtain ⟨cs2, hla, rfl⟩ := h
    obtain ⟨h1, h2, h3, h4⟩ := loadArr_frame f ctx its addl d cs 0 xs cs2 (by omega) hla
    have g1 : cs2.length = max cs.length xs.length := by
      rw [h1]
      omega
    have g2 : ∀ j, xs.length ≤ j → j < cs.length → cs2[j]? = cs[j]? := by
      intro j hj1 hj2
      exact h2 j (Or.inr ⟨by omega, hj2⟩)
    have g3 : ∀ (j : Nat) (c : Widget) (x : JSON), cs[j]? = some c → xs[j]? = some x →
        ∃ fj c2, load_json_object fj c x = some c2 ∧ cs2[j]? = some c2 := by
      intro j c x hcj hx
      exact h3 j c x (by omega) hcj (by simpa using hx)
    have g4 : ∀ (j : Nat) (x : JSON), cs.length ≤ j → xs[j]? = some x → x ≠ .jnull →
        ∃ fj s0 obj c2, get_item_schema its addl j = some s0
          ∧ create_widget fj ("Item #" ++ toString j) s0 ctx (some d) = some obj
          ∧ load_json_object fj obj x = some c2 ∧ cs2[j]? = some c2 := by
      intro j x hj hx hxn
      exact h4 j x hj (by simpa using hx) hxn
    exact ⟨cs2, rfl, g1, g2, g3, g4⟩

theorem C4_witness :
    ∃ cs2, (load_json_object 5
        (.wArray "a" .jnull (.jobj []) ctx0 (.jobj [("type", .jstr "boolean")]) none c4cs)
        (.jarr [.jbool true])).getD default
      = .wArray "a" .jnull (.jobj []) ctx0 (.jobj [("type", .jstr "boolean")]) none cs2
      ∧ cs2.length = max c4cs.length 1
      ∧ (∀ j, 1 ≤ j → j < c4cs.length → cs2[j]? = c4cs[j]?) := by
  obtain ⟨cs2, heq, h1, h2, h3, h4⟩ := C4_array_load_monotonic 5 "a" .jnull (.jobj []) ctx0
    (.jobj [("type", .jstr "boolean")]) none c4cs [.jbool true]
    ((load_json_object 5
        (.wArray "a" .jnull (.jobj []) ctx0 (.jobj [("type", .jstr "boolean")]) none c4cs)
        (.jarr [.jbool true])).getD default) (by rfl)
  refine ⟨cs2, ?_, by simpa using h1, fun j hj1 hj2 => h2 j (by simpa using hj1) hj2⟩
  rw [heq]

theorem propLookup_append (pre l : List (String × Widget)) (k : String)
    (h : k ∉ pre.map Prod.fst) : propLookup (pre ++ l) k = propLookup l k := by
  induction pre with
  | nil => rfl
  | cons p rest ih =>
    obtain ⟨k0, w0⟩ := p
    simp only [List.map_cons, List.mem_cons, not_or] at h
    have hk : ¬ k0 = k := fun hh => h.1 hh.symm
    simp only [List.cons_append, propLookup, if_neg hk]
    exact ih h.2

theorem propReplace_append (pre l : List (String × Widget)) (k : String) (c : Widget)
    (h : k ∉ pre.map Prod.fst) : propReplace (pre ++ l) k c = pre ++ propReplace l k c := by
  induction pre with
  | nil => rfl
  | cons p rest ih =>
    obtain ⟨k0, w0⟩ := p
    simp only [List.map_cons, List.mem_cons, not_or] at h
    have hk : ¬ k0 = k := fun hh => h.1 hh.symm
    simp only [List.cons_append, propReplace, if_neg hk, List.append_eq]
    rw [ih h.2]

theorem setAppend_cons {α : Type} (pre : List α) (c : α) (suf : List α) (c2 : α) :
    (pre ++ c :: suf).set pre.length c2 = pre ++ c2 :: suf := by
  induction pre with
  | nil => rfl
  | cons p rest ih => simp [List.set, ih]

theorem getAppend_cons {α : Type} (pre : List α) (c : α) (suf : List α) :
    (pre ++ c :: suf)[pre.length]? = some c := by
  induction pre with
  | nil => simp
  | cons p rest ih => simpa using ih

theorem fitsChildren_length (cs : List Widget) (xs : List JSON)
    (h : fitsChildren cs xs = true) : cs.length = xs.length := by
  induction cs generalizing xs with
  | nil =>
    cases xs with
    | nil => rfl
    | cons x r => simp [fitsChildren] at h
  | cons c rest ih =>
    cases xs with
    | nil => simp [fitsChildren] at h
    | cons x r =>
      simp only [fitsChildren, Bool.and_eq_true] at h
      simp [ih r h.2]

/-- Grand round-trip invariant, by induction on fuel: within the `fits`
regime, a successful `load_json_object` is inverted exactly by
`dump_json_object` — simultaneously for widgets, for the object property
loop, and for the array child loop (the latter two generalised over an
untouched prefix).  Claims C1 and C6 instantiate it. -/
theorem fits_round_trip_all : ∀ f : Nat,
    (∀ (w : Widget) (v : JSON) (w2 : Widget), fits w v = true →
      load_json_object f w v = some w2 → dump_json_object w2 = some v)
    ∧ (∀ (pre suf : List (String × Widget)) (kvs : List (String × JSON))
        (props2 : List (String × Widget)),
      (kvs.map Prod.fst).Nodup →
      (∀ k, k ∈ kvs.map Prod.fst → k ∉ pre.map Prod.fst) →
      fitsProps suf kvs = true →
      loadProps f (pre ++ suf) kvs = some props2 →
      ∃ suf2, props2 = pre ++ suf2 ∧ dumpProps suf2 = some kvs)
    ∧ (∀ (ctx : Ctx) (its : JSON) (addl : Option JSON) (d : JSON)
        (pre suf : List Widget) (xs : List JSON) (cs2 : List Widget),
      fitsChildren suf xs = true →
      loadArr f ctx its addl d (pre ++ suf) pre.length xs = some cs2 →
      ∃ suf2, cs2 = pre ++ suf2 ∧ dumpChildren suf2 = some xs) := by
  intro f
  induction f with
  | zero =>
    refine ⟨?_, ?_, ?_⟩
    · intro w v w2 _ h
      exact Option.noConfusion h
    · intro pre suf kvs props2 _ _ _ h
      exact Option.noConfusion h
    · intro ctx its addl d pre suf xs cs2 _ h
      exact Option.noConfusion h
  | succ f ih =>
    obtain ⟨ihP, ihQ, ihR⟩ := ih
    refine ⟨?_, ?_, ?_⟩
    · intro w v w2 hf h
      cases w with
      | wUnsupported n s d =>
        cases v <;> simp [fits] at hf
      | wObject n s d props =>
        cases v with
        | jobj kvs =>
          simp only [fits, Bool.and_eq_true, decide_eq_true_eq] at hf
          obtain ⟨hnd, hfp⟩ := hf
          simp only [load_json_object, Option.map_eq_some'] at h
          obtain ⟨props2, hlp, rfl⟩ := h
          obtain ⟨suf2, hps, hdp⟩ := ihQ [] props kvs props2 hnd (by simp) hfp
            (by simpa using hlp)
          simp only [List.nil_append] at hps
          subst hps
          simp [dump_json_object, hdp]
        | jnull => simp [fits] at hf
        | jbool b => simp [fits] at hf
        | jint m => simp [fits] at hf
        | jnum q => simp [fits] at hf
        | jstr str => simp [fits] at hf
        | jarr xs => simp [fits] at hf
      | wString n s d e =>
        cases v with
        | jstr str =>
          simp only [fits, decide_eq_true_eq] at hf
          simp only [load_json_object] at h
          obtain rfl := Option.some_injective _ h
          simp [dump_json_object, LineEdit.setText, if_pos hf]
        | jnull => simp [fits] at hf
        | jbool b => simp [fits] at hf
        | jint m => simp [fits] at hf
        | jnum q => simp [fits] at hf
        | jarr xs => simp [fits] at hf
        | jobj kvs => simp [fits] at hf
      | wInt n s d b =>
        cases v with
        | jint m =>
          simp only [fits, decide_eq_true_eq] at hf
          simp only [load_json_object, asInt, Option.map_some'] at h
          obtain rfl := Option.some_injective _ h
          have hcl : clampI b.lo b.hi m = m := by
            unfold clampI
            omega
          simp [dump_json_object, SpinBox.setValue, hcl]
        | jnull => simp [fits] at hf
        | jbool bb => simp [fits] at hf
        | jnum q => simp [fits] at hf
        | jstr str => simp [fits] at hf
        | jarr xs => simp [fits] at hf
        | jobj kvs => simp [fits] at hf
      | wNum n s d b =>
        cases v with
        | jnum q =>
          simp only [fits, decide_eq_true_eq] at hf
          obtain ⟨h1, h2, h3⟩ := hf
          simp only [load_json_object, asRat, Option.map_some'] at h
          obtain rfl := Option.some_injective _ h
          have hcl : clampQ b.lo b.hi (round2 q) = q := by
            rw [round2_den_one q h3]
            unfold clampQ
            rw [min_eq_left h2, max_eq_right h1]
          simp [dump_json_object, DSpinBox.setValue, hcl]
        | jnull => simp [fits] at hf
        | jbool bb => simp [fits] at hf
        | jint m => simp [fits] at hf
        | jstr str => simp [fits] at hf
        | jarr xs => simp [fits] at hf
        | jobj kvs => simp [fits] at hf
      | wBool n s d c =>
        cases v with
        | jbool bb =>
          simp only [load_json_object] at h
          obtain rfl := Option.some_injective _ h
          rfl
        | jnull => simp [fits] at hf
        | jint m => simp [fits] at hf
        | jnum q => simp [fits] at hf
        | jstr str => simp [fits] at hf
        | jarr xs => simp [fits] at hf
        | jobj kvs => simp [fits] at hf
      | wEnum n s d vals c =>
        simp only [fits, decide_eq_true_eq] at hf
        obtain ⟨hc, hv⟩ := hf
        have hl : load_json_object (f + 1) (.wEnum n s d vals c) v
            = (listIndex vals v).map
              fun i => .wEnum n s d vals (c.setCurrentIndex (i : Int)) := by
          simp only [load_json_object]
          cases listIndex vals v <;> rfl
        rw [hl] at h
        cases hli : listIndex vals v with
        | none =>
          rw [hli] at h
          exact Option.noConfusion h
        | some i =>
          rw [hli] at h
          simp only [Option.map_some'] at h
          obtain rfl := Option.some_injective _ h
          have hlt := listIndex_lt vals v i hli
          have hget := listIndex_getElem vals v i hli
          have hcond : (0 : Int) ≤ (i : Int) ∧ (i : Int) < ((c.count : Nat) : Int) := by
            rw [hc]
            exact ⟨Int.natCast_nonneg i, by exact_mod_cast hlt⟩
          have hidx : (Combo.setCurrentIndex c (i : Int)).currentIndex = (i : Int) := by
            simp [Combo.setCurrentIndex, hcond]
          show pyGet vals (Combo.setCurrentIndex c (i : Int)).currentIndex = some v
          rw [hidx]
          unfold pyGet
          rw [if_pos (Int.natCast_nonneg i)]
          simpa using hget
      | wArray n s d ctx its addl cs =>
        cases v with
        | jarr xs =>
          have hfc : fitsChildren cs xs = true := by simpa [fits] using hf
          simp only [load_json_object, Option.map_eq_some'] at h
          obtain ⟨cs2, hla, rfl⟩ := h
          obtain ⟨suf2, hcs, hdc⟩ := ihR ctx its addl d [] cs xs cs2 hfc
            (by simpa using hla)
          simp only [List.nil_append] at hcs
          subst hcs
          simp [dump_json_object, hdc]
        | jnull => simp [fits] at hf
        | jbool bb => simp [fits] at hf
        | jint m => simp [fits] at hf
        | jnum q => simp [fits] at hf
        | jstr str => simp [fits] at hf
        | jobj kvs => simp [fits] at hf
    · intro pre suf kvs props2 hnd hdisj hfp h
      cases kvs with
      | nil =>
        cases suf with
        | cons p ps => simp [fitsProps] at hfp
        | nil =>
          simp only [loadProps] at h
          obtain rfl := Option.some_injective _ h
          exact ⟨[], rfl, rfl⟩
      | cons kv rest =>
        obtain ⟨k, v⟩ := kv
        cases suf with
        | nil => simp [fitsProps] at hfp
        | cons p ps =>
          obtain ⟨k0, w⟩ := p
          simp only [fitsProps, Bool.and_eq_true] at hfp
          obtain ⟨⟨hk0, hfw⟩, hfps⟩ := hfp
          obtain rfl : k0 = k := eq_of_beq hk0
          have hprek : k0 ∉ pre.map Prod.fst := hdisj k0 (by simp)
          have hlk : propLookup (pre ++ (k0, w) :: ps) k0 = some w := by
            rw [propLookup_append pre _ k0 hprek]
            simp [propLookup]
          cases hld : load_json_object f w v with
          | none =>
            simp only [loadProps, hlk, hld] at h
            exact Option.noConfusion h
          | some c2 =>
            simp only [loadProps, hlk, hld] at h
            rw [propReplace_append pre _ k0 c2 hprek] at h
            have hrep : propReplace ((k0, w) :: ps) k0 c2 = (k0, c2) :: ps := by
              simp [propReplace]
            rw [hrep] at h
            rw [show pre ++ (k0, c2) :: ps = (pre ++ [(k0, c2)]) ++ ps by simp] at h
            simp only [List.map_cons, List.nodup_cons] at hnd
            have hdisj2 : ∀ k2, k2 ∈ rest.map Prod.fst →
                k2 ∉ (pre ++ [(k0, c2)]).map Prod.fst := by
              intro k2 hk2
              simp only [List.map_append, List.map_cons, List.map_nil,
                List.mem_append, List.mem_singleton, not_or]
              refine ⟨hdisj k2 (by simp [hk2]), ?_⟩
              intro hkk
              rw [hkk] at hk2
              exact hnd.1 hk2
            obtain ⟨suf2, hps2, hdp2⟩ := ihQ (pre ++ [(k0, c2)]) ps rest props2
              hnd.2 hdisj2 hfps h
            refine ⟨(k0, c2) :: suf2, ?_, ?_⟩
            · rw [hps2]
              simp
            · have hdc2 : dump_json_object c2 = some v := ihP w v c2 hfw hld
              simp [dumpProps, hdc2, hdp2]
    · intro ctx its addl d pre suf xs cs2 hfc h
      cases xs with
      | nil =>
        cases suf with
        | cons c ps => simp [fitsChildren] at hfc
        | nil =>
          simp only [loadArr] at h
          obtain rfl := Option.some_injective _ h
          exact ⟨[], rfl, rfl⟩
      | cons x rest =>
        cases suf with
        | nil => simp [fitsChildren] at hfc
        | cons c suf0 =>
          simp only [fitsChildren, Bool.and_eq_true] at hfc
          obtain ⟨hfw, hfcs⟩ := hfc
          have hlen : pre.length < (pre ++ c :: suf0).length := by simp
          simp only [loadArr] at h
          rw [dif_pos hlen] at h
          have hg : (pre ++ c :: suf0)[pre.length] = c := by
            have h1 := getAppend_cons pre c suf0
            rw [List.getElem?_eq_getElem hlen] at h1
            exact Option.some_injective _ h1
          rw [hg] at h
          cases hld : load_json_object f c x with
          | none =>
            simp only [hld] at h
            exact Option.noConfusion h
          | some c2 =>
            simp only [hld] at h
            rw [setAppend_cons] at h
            rw [show pre ++ c2 :: suf0 = (pre ++ [c2]) ++ suf0 by simp] at h
            rw [show pre.length + 1 = (pre ++ [c2]).length by simp] at h
            obtain ⟨suf2, hcs2, hdc2⟩ := ihR ctx its addl d (pre ++ [c2]) suf0
              rest cs2 hfcs h
            refine ⟨c2 :: suf2, ?_, ?_⟩
            · rw [hcs2]
              simp
            · have hdw : dump_json_object c2 = some x := ihP c x c2 hfw hld
              simp [dumpChildren, hdw, hdc2]

/-- C1 (amended): for every widget tree `w` and value `v` that fits the
tree's current shape and input constraints (`fits w v`: matching types,
strings within the line edit's cap, numerals within the spin box range and —
for Number — exactly representable at two decimals, enum values present in
the enum list, objects supplying exactly the declared properties, sequences
exactly as long as the current child list), a `load_json_object` call that
succeeds is inverted exactly by `dump_json_object`; an Enum node
round-trips by value equality, not index.  Unconditionally the claim is
false (see the counterexample: an array whose `default` created more
children than the loaded sequence keeps its stale trailing children in the
dump). -/
theorem C1_round_trip_amended (f : Nat) (w : Widget) (v : JSON) (w2 : Widget)
    (hf : fits w v = true) (h : load_json_object f w v = some w2) :
    dump_json_object w2 = some v :=
  (fits_round_trip_all f).1 w v w2 hf h

theorem C1_witness :
    fits c1w c1v = true
    ∧ dump_json_object ((load_json_object 10 c1w c1v).getD default) = some c1v :=
  ⟨by rfl,
    C1_round_trip_amended 10 c1w c1v ((load_json_object 10 c1w c1v).getD default)
      (by rfl) (by rfl)⟩

/-- C6 (amended): `_create_widget` runs the `initialise()` hook after
construction, and when the schema carries a `default` the hook loads it
through the node's own `load_json_object`; hence the node's initial
`dump_json_object` equals the schema's `default` PROVIDED the default fits
the freshly constructed node (`fits`).  Unconditionally the claim is false
(see the counterexample: an Unsupported node — e.g. `type: "null"` — with a
`default` dumps the fixed sentinel, not the default). -/
theorem C6_default_initial_dump (f : Nat) (n : String) (s : JSON) (ctx : Ctx)
    (pd : Option JSON) (w0 w2 : Widget) (dflt : JSON)
    (hc : construct_widget f n s ctx pd = some w0)
    (hd : jsonLookup w0.schemaOf "default" = some dflt)
    (hfit : fits w0 dflt = true)
    (hcr : create_widget (f + 1) n s ctx pd = some w2) :
    dump_json_object w2 = some dflt := by
  simp only [create_widget, hc, hd] at hcr
  exact (fits_round_trip_all f).1 w0 dflt w2 hfit hcr

theorem C6_witness :
    dump_json_object ((create_widget 10 "b" c6wschema ctx0 none).getD default)
      = some (.jbool true) :=
  C6_default_initial_dump 9 "b" c6wschema ctx0 none
    ((construct_widget 9 "b" c6wschema ctx0 none).getD default)
    ((create_widget 10 "b" c6wschema ctx0 none).getD default)
    (.jbool true) (by rfl) (by rfl) (by rfl) (by rfl)

end PyQtSchema
